import Mathlib

/-!
# Autonomous deployment controller: rollback policy and executor

A shallow embedding of `lab/applications/autonomous-controller/main.go`.

* Go `map[string]T` values are finite maps, represented by `GoMap T`; every operation
  reads them through `GoMap.lookup`, so the representation order is irrelevant (Go's
  iteration order is unspecified, and the code's loops do not depend on it).
* Calls to the Kubernetes / Istio / Prometheus clients are external.  Their outcomes are
  inputs of the model (`RollbackEnv`), and every call the code makes is recorded, with its
  argument, in a list of `ApiCall`s.
* `time.Time` is the number of nanoseconds since Go's zero time; `time.Duration` is a
  number of nanoseconds saturating at the `int64` bounds.
* Counters that grow by one per call (`int` fields, Prometheus counters) are unbounded
  integers: they cannot reach the 64-bit limits in a run of the controller.
-/

set_option autoImplicit false

namespace AutonomousController

deriving instance DecidableEq for Except

/-! ## Go maps with string keys -/

/-- A Go `map[string]α`: the value bound to a key is the first entry carrying it. -/
structure GoMap (α : Type) where
  entries : List (String × α)
deriving Repr, DecidableEq

namespace GoMap

variable {α : Type}

/-- The empty map, `make(map[string]α)`. -/
def empty : GoMap α := ⟨[]⟩

/-- First value bound to `k` in a list of entries. -/
def find (k : String) : List (String × α) → Option α
  | [] => none
  | (k0, v) :: rest => if k0 = k then some v else find k rest

/-- Rebind `k` to `v` in a list of entries (append when `k` is unbound). -/
def put (k : String) (v : α) : List (String × α) → List (String × α)
  | [] => [(k, v)]
  | (k0, v0) :: rest => if k0 = k then (k, v) :: rest else (k0, v0) :: put k v rest

/-- The two-valued read `v, ok := m[k]`. -/
def lookup (m : GoMap α) (k : String) : Option α := find k m.entries

/-- The read `m[k]`, which yields the zero value `zero` for an unbound key. -/
def getD (m : GoMap α) (k : String) (zero : α) : α := (m.lookup k).getD zero

/-- The write `m[k] = v`. -/
def insert (m : GoMap α) (k : String) (v : α) : GoMap α := ⟨put k v m.entries⟩

/-- Drop every entry of key `k` from a list of entries. -/
def remove (k : String) : List (String × α) → List (String × α)
  | [] => []
  | (k0, v) :: rest => if k0 = k then remove k rest else (k0, v) :: remove k rest

/-- The builtin `delete(m, k)`. -/
def erase (m : GoMap α) (k : String) : GoMap α := ⟨remove k m.entries⟩

/-- The distinct keys of a list of entries. -/
def distinctKeys : List (String × α) → List String
  | [] => []
  | (k, _) :: rest => if k ∈ distinctKeys rest then distinctKeys rest else k :: distinctKeys rest

/-- The keys a `for k := range m` loop visits: each bound key once. -/
def keys (m : GoMap α) : List String := distinctKeys m.entries

/-- The loop `for k := range m { m[k] = v }`. -/
def setAll (m : GoMap α) (v : α) : GoMap α := ⟨m.entries.map (fun e => (e.1, v))⟩

/-- The builtin `len(m)`. -/
def len (m : GoMap α) : Nat := m.keys.length

end GoMap

/-! ## Configuration and controller state -/

/-- A `time.Time`, in nanoseconds since the zero time. -/
abbrev Time := Int

/-- A `time.Duration`, in nanoseconds. -/
abbrev Duration := Int

/-- A `float64` as far as comparisons see it: a finite value is `m * 2 ^ e`. -/
inductive F64 where
  | nan
  | negInf
  | finite (m e : Int)
  | posInf
deriving Repr, DecidableEq

/-- The IEEE comparison `a < b` (false as soon as one side is NaN). -/
def F64.lt : F64 → F64 → Bool
  | .nan, _ => false
  | _, .nan => false
  | .negInf, .negInf => false
  | .negInf, _ => true
  | _, .negInf => false
  | .posInf, _ => false
  | _, .posInf => true
  | .finite m1 e1, .finite m2 e2 =>
    let e := min e1 e2
    decide (m1 * 2 ^ (e1 - e).toNat < m2 * 2 ^ (e2 - e).toNat)

/-- Go's `SLOConfig`. -/
structure SLOConfig where
  Threshold : F64 := .finite 0 0
  MeasurementWindow : String := ""
  EvaluationInterval : String := ""
  ConsecutiveFailures : Int := 0
deriving Repr, DecidableEq

/-- Go's `CrossClusterConfig`. -/
structure CrossClusterConfig where
  PrimaryCluster : String := ""
  SecondaryCluster : String := ""
  FailoverThreshold : Int := 0
  FailbackThreshold : Int := 0
  HealthCheckInterval : String := ""
deriving Repr, DecidableEq

/-- Go's `Config`, restricted to the parts the rollback path reads. -/
structure Config where
  SLOs : GoMap SLOConfig := GoMap.empty
  CrossCluster : CrossClusterConfig := {}
deriving Repr, DecidableEq

/-- Go's `DeploymentState`. -/
structure DeploymentState where
  Name : String := ""
  Namespace : String := ""
  CurrentVersion : String := ""
  TargetVersion : String := ""
  Strategy : String := ""
  Phase : String := ""
  TrafficSplit : GoMap Int := GoMap.empty
  SLOViolations : GoMap Int := GoMap.empty
  LastRollback : Time := 0
  ConsecutiveFailures : Int := 0
  HealthStatus : String := ""
  CrossClusterActive : Bool := false
deriving Repr, DecidableEq

/-! ## Routing rulesets and workloads (the external API objects) -/

/-- Istio `Destination`. -/
structure Destination where
  Host : String
  Subset : String := ""
deriving Repr, DecidableEq

/-- Istio `Headers_HeaderOperations`. -/
structure HeaderOperations where
  Set : GoMap String := GoMap.empty
  Add : GoMap String := GoMap.empty
  Remove : List String := []
deriving Repr, DecidableEq

/-- Istio `Headers`. -/
structure Headers where
  Request : Option HeaderOperations := none
  Response : Option HeaderOperations := none
deriving Repr, DecidableEq

/-- Istio `HTTPRouteDestination`: one weighted destination of a route.  Its destination
is always present, as the validation of a ruleset requires. -/
structure HTTPRouteDestination where
  Destination : Destination
  Weight : Int := 0
  Headers : Option Headers := none
deriving Repr, DecidableEq

/-- Istio `HTTPRoute`. -/
structure HTTPRoute where
  Route : List HTTPRouteDestination
deriving Repr, DecidableEq

/-- Istio `VirtualService` (its `Spec.Http`). -/
structure VirtualService where
  Http : List HTTPRoute
deriving Repr, DecidableEq

/-- A container of the pod template. -/
structure Container where
  Name : String := ""
  Image : String
deriving Repr, DecidableEq

/-- A Kubernetes `Deployment`: annotations (a nil map reads as empty) and containers. -/
structure Deployment where
  Annotations : GoMap String := GoMap.empty
  Containers : List Container := []
deriving Repr, DecidableEq

/-- A call made to an external API, with the object handed over. -/
inductive ApiCall where
  | getVirtualService
  | updateVirtualService (vs : VirtualService)
  | getDeployment (name : String)
  | updateDeployment (d : Deployment)
  | createEvent (deployment eventType reason message : String)
deriving Repr, DecidableEq

/-! ## Step 1: traffic routing -/

/-- The first test of the inner loop: `Subset == "canary" || Subset == "green"`. -/
def isCanaryOrGreen (r : HTTPRouteDestination) : Bool :=
  r.Destination.Subset == "canary" || r.Destination.Subset == "green"

/-- The second test of the inner loop: `Subset == "stable" || Subset == "blue"`. -/
def isStableOrBlue (r : HTTPRouteDestination) : Bool :=
  r.Destination.Subset == "stable" || r.Destination.Subset == "blue"

/-- Body of the inner loop of `rollbackTrafficRouting` for one route destination. -/
def resetDestination (r : HTTPRouteDestination) : HTTPRouteDestination :=
  let r1 := if isCanaryOrGreen r then { r with Weight := 0 } else r
  if isStableOrBlue r1 then { r1 with Weight := 100 } else r1

/-- The two nested loops of `rollbackTrafficRouting`. -/
def resetTraffic (vs : VirtualService) : VirtualService :=
  { vs with Http := vs.Http.map (fun h => { h with Route := h.Route.map resetDestination }) }

/-- Go's `rollbackTrafficRouting`: `get` is the outcome of the `Get` call, `update` the
error of the `Update` call (`none` for success).  Returns the error and the calls made. -/
def rollbackTrafficRouting (get : Except String VirtualService) (update : Option String) :
    Option String × List ApiCall :=
  match get with
  | .error e => (some ("failed to get VirtualService: " ++ e), [.getVirtualService])
  | .ok vs => (update, [.getVirtualService, .updateVirtualService (resetTraffic vs)])

/-! ## The `strings` and `strconv` functions used by step 2

Strings are sequences of characters; the separators searched for are ASCII, for which
splitting characters and splitting bytes agree. -/

/-- Whether `s` begins with `sep`. -/
def startsWith : List Char → List Char → Bool
  | [], _ => true
  | _ :: _, [] => false
  | a :: as, b :: bs => a == b && startsWith as bs

/-- Whether `sep` occurs in `s`. -/
def containsChars (sep : List Char) : List Char → Bool
  | [] => startsWith sep []
  | c :: cs => startsWith sep (c :: cs) || containsChars sep cs

/-- The pieces of `s` between the leftmost non-overlapping occurrences of a non-empty
`sep`; the first argument counts the characters of a matched separator still to skip. -/
def splitFrom (sep : List Char) : Nat → List Char → List (List Char)
  | _, [] => [[]]
  | k + 1, _ :: cs => splitFrom sep k cs
  | 0, c :: cs =>
    if startsWith sep (c :: cs) then [] :: splitFrom sep (sep.length - 1) cs
    else
      match splitFrom sep 0 cs with
      | [] => [[c]]
      | p :: ps => (c :: p) :: ps

/-- Go's `strings.Contains`. -/
def Contains (s sep : String) : Bool := containsChars sep.toList s.toList

/-- Go's `strings.Split`, for a non-empty separator. -/
def Split (s sep : String) : List String := (splitFrom sep.toList 0 s.toList).map String.mk

/-- Go's `strings.Join`. -/
def Join : List String → String → String
  | [], _ => ""
  | [a], _ => a
  | a :: b :: rest, sep => a ++ sep ++ Join (b :: rest) sep

/-- Value of an ASCII decimal digit. -/
def digitValue (c : Char) : Option Nat :=
  if 48 ≤ c.toNat ∧ c.toNat ≤ 57 then some (c.toNat - 48) else none

/-- Decimal value of a string of digits, continuing from `acc`. -/
def parseDigits : List Char → Nat → Option Nat
  | [], acc => some acc
  | c :: cs, acc =>
    match digitValue c with
    | none => none
    | some d => parseDigits cs (acc * 10 + d)

/-- The error `strconv.Atoi` reports for `s`. -/
def atoiError (s : String) (why : String) : String :=
  "strconv.Atoi: parsing " ++ s.quote ++ ": " ++ why

/-- Unsigned part of `strconv.Atoi`: at least one digit, digits only. -/
def parseMagnitude (ds : List Char) : Option Nat :=
  if ds = [] then none else parseDigits ds 0

/-- Go's `strconv.Atoi` on a 64-bit platform: an optional sign and decimal digits, the
value within the range of `int`. -/
def Atoi (s : String) : Except String Int :=
  match s.toList with
  | '-' :: ds =>
    match parseMagnitude ds with
    | none => .error (atoiError s "invalid syntax")
    | some n => if n ≤ 2 ^ 63 then .ok (-(n : Int)) else .error (atoiError s "value out of range")
  | '+' :: ds =>
    match parseMagnitude ds with
    | none => .error (atoiError s "invalid syntax")
    | some n => if n < 2 ^ 63 then .ok (n : Int) else .error (atoiError s "value out of range")
  | ds =>
    match parseMagnitude ds with
    | none => .error (atoiError s "invalid syntax")
    | some n => if n < 2 ^ 63 then .ok (n : Int) else .error (atoiError s "value out of range")

/-- Go's `fmt.Sprintf("%d", n)`. -/
def formatInt (n : Int) : String := toString n

/-! ## Step 2: workload revision and image tag -/

/-- The annotation holding the revision of a deployment. -/
def revisionKey : String := "deployment.kubernetes.io/revision"

/-- Body of the container loop of `rollbackDeployment`: the image after the rewrite. -/
def rollbackImage (image : String) : String :=
  if Contains image ":v" then
    match Split image ":v" with
    | [path, version] =>
      match Split version "." with
      | major :: minorPart :: rest =>
        match Atoi minorPart with
        | .ok minor =>
          if minor > 0 then
            path ++ ":v" ++ Join (major :: formatInt (minor - 1) :: rest) "."
          else image
        | .error _ => image
      | _ => image
    | _ => image
  else image

/-- Go's `rollbackDeployment`: `get` is the outcome of the `Get` call, `update` the error
of the `Update` call.  Returns the error and the calls made. -/
def rollbackDeployment (deployment : String) (get : Except String Deployment)
    (update : Option String) : Option String × List ApiCall :=
  match get with
  | .error e => (some ("failed to get deployment: " ++ e), [.getDeployment deployment])
  | .ok deploy =>
    let currentRevision := deploy.Annotations.getD revisionKey ""
    if currentRevision = "" then
      (some "no revision found for rollback", [.getDeployment deployment])
    else
      match Atoi currentRevision with
      | .error e => (some ("invalid revision format: " ++ e), [.getDeployment deployment])
      | .ok revision =>
        if revision ≤ 1 then
          (some "no previous revision available for rollback", [.getDeployment deployment])
        else
          let previousRevision := formatInt (revision - 1)
          let updated : Deployment :=
            { Annotations := deploy.Annotations.insert revisionKey previousRevision
              Containers := deploy.Containers.map
                (fun c => { c with Image := rollbackImage c.Image }) }
          (update, [.getDeployment deployment, .updateDeployment updated])

/-! ## Step 3: cross-cluster failover -/

/-- Body of the inner loop of `performCrossClusterFailover` for one route destination. -/
def failoverDestination (secondary : String) (r : HTTPRouteDestination) :
    HTTPRouteDestination :=
  if r.Destination.Host = "ecommerce-app" then
    let operations : HeaderOperations :=
      { Add := ⟨[("x-failover-active", "true"), ("x-target-cluster", secondary)]⟩ }
    let headers : Headers := { Request := some operations }
    { r with Headers := some headers }
  else r

/-- Go's `performCrossClusterFailover`. -/
def performCrossClusterFailover (config : Config) (get : Except String VirtualService)
    (update : Option String) : Option String × List ApiCall :=
  match get with
  | .error e => (some ("failed to get VirtualService: " ++ e), [.getVirtualService])
  | .ok vs =>
    let routed : VirtualService :=
      { Http := vs.Http.map (fun h =>
          { Route := h.Route.map (failoverDestination config.CrossCluster.SecondaryCluster) }) }
    match update with
    | some e =>
      (some ("failed to update VirtualService for failover: " ++ e),
        [.getVirtualService, .updateVirtualService routed])
    | none => (none, [.getVirtualService, .updateVirtualService routed])

/-! ## The controller and `performAutonomousRollback` -/

/-- Go's `AutonomousController`: configuration, the three counters and the registry. -/
structure Controller where
  config : Config := {}
  rollbacksTotal : Nat := 0
  deploymentsTotal : Nat := 0
  sloViolationsTotal : Nat := 0
  deploymentStates : GoMap DeploymentState := GoMap.empty
deriving Repr, DecidableEq

/-- Outcomes of the external calls and clock readings of one invocation of
`performAutonomousRollback`, in the order the code makes them. -/
structure RollbackEnv where
  nowCooldown : Time
  getRouting : Except String VirtualService
  updateRouting : Option String
  getDeploy : Except String Deployment
  updateDeploy : Option String
  getFailover : Except String VirtualService
  updateFailover : Option String
  nowFinalize : Time
deriving Repr, DecidableEq

/-- The `return` statement through which an invocation leaves. -/
inductive Exit where
  | noTrigger
  | cooldown
  | trafficFailed
  | deploymentFailed
  | completed
deriving Repr, DecidableEq

/-- What an invocation of `performAutonomousRollback` leaves behind. -/
structure RollbackResult where
  controller : Controller
  err : Option String
  calls : List ApiCall
  exit : Exit
deriving Repr, DecidableEq

/-- Ten minutes, in nanoseconds. -/
def tenMinutes : Duration := 10 * 60 * 1000000000

/-- Largest `time.Duration`. -/
def maxDuration : Duration := 2 ^ 63 - 1

/-- Smallest `time.Duration`. -/
def minDuration : Duration := -(2 ^ 63)

/-- Go's `time.Since(t)` when the clock reads `now`: the difference, saturating. -/
def since (now t : Time) : Duration :=
  if now - t > maxDuration then maxDuration
  else if now - t < minDuration then minDuration
  else now - t

/-- The loop `for violation := range violations { state.SLOViolations[violation]++ }`. -/
def incrementViolations (counts : GoMap Int) (violations : GoMap Bool) : GoMap Int :=
  violations.keys.foldl (fun m k => m.insert k (m.getD k 0 + 1)) counts

/-- The loop computing `shouldRollback`: some counted SLO reached its threshold. -/
def shouldRollback (config : Config) (counts : GoMap Int) : Bool :=
  counts.keys.any (fun k => decide ((config.SLOs.getD k {}).ConsecutiveFailures ≤ counts.getD k 0))

/-- The state registered for `deployment`, created when there is none. -/
def stateOf (c : Controller) (deployment : String) : DeploymentState :=
  match c.deploymentStates.lookup deployment with
  | some st => st
  | none => { Name := deployment, Namespace := "ecommerce", SLOViolations := GoMap.empty }

/-- The controller with `st` registered for `deployment`. -/
def withState (c : Controller) (deployment : String) (st : DeploymentState) : Controller :=
  { c with deploymentStates := c.deploymentStates.insert deployment st }

/-- The state after the counting loop: the registered (or fresh) state with the counts of
the violated SLOs advanced. -/
def countedState (c : Controller) (deployment : String) (violations : GoMap Bool) :
    DeploymentState :=
  let state0 := stateOf c deployment
  { state0 with SLOViolations := incrementViolations state0.SLOViolations violations }

/-- The state after the `Update state` and `Reset SLO violation counters` blocks. -/
def finalizedState (state : DeploymentState) (now : Time) : DeploymentState :=
  { state with
    LastRollback := now
    ConsecutiveFailures := state.ConsecutiveFailures + 1
    Phase := "rolled-back"
    SLOViolations := state.SLOViolations.setAll 0 }

/-- The event `performAutonomousRollback` creates once the rollback is done. -/
def rollbackEvent (deployment : String) : ApiCall :=
  .createEvent deployment "Warning" "AutonomousRollback"
    "Autonomous rollback performed due to SLO violations"

/-- Go's `performAutonomousRollback`. -/
def performAutonomousRollback (c : Controller) (env : RollbackEnv) (deployment : String)
    (violations : GoMap Bool) : RollbackResult :=
  let state := countedState c deployment violations
  if !shouldRollback c.config state.SLOViolations then
    ⟨withState c deployment state, none, [], .noTrigger⟩
  else if since env.nowCooldown state.LastRollback < tenMinutes then
    ⟨withState c deployment state, none, [], .cooldown⟩
  else
    match rollbackTrafficRouting env.getRouting env.updateRouting with
    | (some e, calls1) =>
      ⟨withState c deployment state, some ("failed to rollback traffic routing: " ++ e),
        calls1, .trafficFailed⟩
    | (none, calls1) =>
      match rollbackDeployment deployment env.getDeploy env.updateDeploy with
      | (some e, calls2) =>
        ⟨withState c deployment state, some ("failed to rollback deployment: " ++ e),
          calls1 ++ calls2, .deploymentFailed⟩
      | (none, calls2) =>
        let calls3 :=
          if state.CrossClusterActive then
            (performCrossClusterFailover c.config env.getFailover env.updateFailover).2
          else []
        let registered := withState c deployment (finalizedState state env.nowFinalize)
        ⟨{ registered with rollbacksTotal := c.rollbacksTotal + 1 }, none,
          calls1 ++ calls2 ++ calls3 ++ [rollbackEvent deployment], .completed⟩

/-- Successive invocations of `performAutonomousRollback` for one deployment with the
same violation map, one per environment: their results in order. -/
def invokeAll (c : Controller) (deployment : String) (violations : GoMap Bool) :
    List RollbackEnv → List RollbackResult
  | [] => []
  | env :: rest =>
    let r := performAutonomousRollback c env deployment violations
    r :: invokeAll r.controller deployment violations rest

/-- The controller left by successive invocations of `performAutonomousRollback`. -/
def invokeAllController (c : Controller) (deployment : String) (violations : GoMap Bool) :
    List RollbackEnv → Controller
  | [] => c
  | env :: rest =>
    invokeAllController (performAutonomousRollback c env deployment violations).controller
      deployment violations rest

/-! ## SLO evaluation and the reconciler -/

/-- The value a Prometheus instant query returns. -/
inductive QueryValue where
  | vector (samples : List F64)
  | scalar (v : F64)
  | other
deriving Repr, DecidableEq

/-- Go's `queryPrometheus`, given the outcome of the client's `Query`. -/
def queryPrometheus (r : Except String QueryValue) : Except String F64 :=
  match r with
  | .error e => .error e
  | .ok (.vector (v :: _)) => .ok v
  | .ok (.scalar v) => .ok v
  | .ok _ => .error "no data returned from query"

/-- Outcomes of the three queries of one run of `evaluateSLOs`. -/
structure SLOQueries where
  successRate : Except String QueryValue
  latencyP95 : Except String QueryValue
  errorRate : Except String QueryValue
deriving Repr, DecidableEq

/-- Go's `evaluateSLOs`: the controller (its violation counter advanced) and the
violation map; the error it returns is always nil. -/
def evaluateSLOs (c : Controller) (q : SLOQueries) : Controller × GoMap Bool :=
  let s0 : Controller × GoMap Bool := (c, GoMap.empty)
  let s1 :=
    match queryPrometheus q.successRate with
    | .error _ => s0
    | .ok successRate =>
      if F64.lt successRate (c.config.SLOs.getD "success_rate" {}).Threshold then
        ({ s0.1 with sloViolationsTotal := s0.1.sloViolationsTotal + 1 },
          s0.2.insert "success_rate" true)
      else s0
  let s2 :=
    match queryPrometheus q.latencyP95 with
    | .error _ => s1
    | .ok latencyP95 =>
      if F64.lt (c.config.SLOs.getD "latency_p95" {}).Threshold latencyP95 then
        ({ s1.1 with sloViolationsTotal := s1.1.sloViolationsTotal + 1 },
          s1.2.insert "latency_p95" true)
      else s1
  match queryPrometheus q.errorRate with
  | .error _ => s2
  | .ok errorRate =>
    if F64.lt (c.config.SLOs.getD "error_rate" {}).Threshold errorRate then
      ({ s2.1 with sloViolationsTotal := s2.1.sloViolationsTotal + 1 },
        s2.2.insert "error_rate" true)
    else s2

/-- Body of the loop of `evaluateAllDeployments` for one listed deployment: the
controller afterwards and, when `performAutonomousRollback` was invoked, its result. -/
def evaluateDeployment (c : Controller) (name : String) (q : SLOQueries)
    (env : RollbackEnv) : Controller × Option RollbackResult :=
  let (c1, violations) := evaluateSLOs c q
  if violations.len > 0 then
    let r := performAutonomousRollback c1 env name violations
    (r.controller, some r)
  else (c1, none)

/-- Go's `evaluateAllDeployments`: `list` is the outcome of the `List` call, each listed
name paired with the outcomes of the calls its evaluation makes. -/
def evaluateAllDeployments (c : Controller)
    (list : Except String (List (String × SLOQueries × RollbackEnv))) : Controller :=
  match list with
  | .error _ => c
  | .ok items => items.foldl (fun c1 item => (evaluateDeployment c1 item.1 item.2.1 item.2.2).1) c

/-! ## The watcher and the reconciler side by side

`Run` starts the watcher on its own goroutine, so its callbacks are delivered while the
reconciler works.  `performAutonomousRollback` holds the mutex only for lines 261-271,
where it reads (or creates and registers) the state of the deployment; afterwards it
works through the pointer it obtained.  A `DeleteFunc` delivered after line 271 removes
the registry entry and leaves the invocation with a state no longer registered.  The
reconciler itself is one goroutine: invocations never overlap each other. -/

/-- A callback of the deployment watcher. -/
inductive WatchEvent where
  | added (name : String)
  | updated (name : String)
  | deleted (name : String)
deriving Repr, DecidableEq

/-- Effect of a callback of `watchDeployments`: `AddFunc`, `UpdateFunc`, `DeleteFunc`. -/
def watchDeployments (c : Controller) : WatchEvent → Controller
  | .added _ => { c with deploymentsTotal := c.deploymentsTotal + 1 }
  | .updated _ => c
  | .deleted name => { c with deploymentStates := c.deploymentStates.erase name }

/-- An invocation of `performAutonomousRollback` past line 271: the controller as the
watcher sees it, the state the invocation's pointer designates, and whether the registry
still holds that pointer. -/
structure InFlight where
  controller : Controller
  state : DeploymentState
  attached : Bool
deriving Repr, DecidableEq

/-- Lines 261-271 of `performAutonomousRollback`: under the mutex, take the registered
state, or register a fresh one. -/
def acquireState (c : Controller) (deployment : String) : InFlight :=
  match c.deploymentStates.lookup deployment with
  | some st => ⟨c, st, true⟩
  | none => ⟨withState c deployment (stateOf c deployment), stateOf c deployment, true⟩

/-- A watcher callback delivered while the invocation for `deployment` is past line 271:
it acts on the registry and the counters, not on the state the invocation holds; a
deletion of `deployment` detaches that state. -/
def watchInFlight (deployment : String) (f : InFlight) (w : WatchEvent) : InFlight :=
  { controller := watchDeployments f.controller w
    state := f.state
    attached := f.attached && decide (w ≠ .deleted deployment) }

/-- Lines 273-334 of `performAutonomousRollback`, run on the state the invocation holds.
Its writes to the state reach the registry only when the state is still attached; the
rollback counter belongs to the controller and is advanced either way. -/
def finishRollback (f : InFlight) (env : RollbackEnv) (deployment : String)
    (violations : GoMap Bool) : RollbackResult :=
  let r := performAutonomousRollback (withState f.controller deployment f.state) env
    deployment violations
  if f.attached then r
  else
    { r with controller := { f.controller with rollbacksTotal := r.controller.rollbacksTotal } }

/-- An invocation of `performAutonomousRollback` during which the watcher delivers the
callbacks `during`, all of them after the invocation released the mutex at line 271. -/
def performDuring (c : Controller) (env : RollbackEnv) (deployment : String)
    (violations : GoMap Bool) (during : List WatchEvent) : RollbackResult :=
  finishRollback (during.foldl (watchInFlight deployment) (acquireState c deployment)) env
    deployment violations

/-- Body of the loop of `evaluateAllDeployments` for one listed deployment, the watcher
delivering the callbacks `during` while `performAutonomousRollback` runs past line 271
(right after `evaluateSLOs` when there is no violation and so no invocation). -/
def evaluateDeploymentDuring (c : Controller) (name : String) (q : SLOQueries)
    (env : RollbackEnv) (during : List WatchEvent) : Controller × Option RollbackResult :=
  let (c1, violations) := evaluateSLOs c q
  if violations.len > 0 then
    let r := performDuring c1 env name violations during
    (r.controller, some r)
  else (during.foldl watchDeployments c1, none)

/-- What happens to the controller: one iteration of the reconciler's loop together with
the watcher callbacks delivered once its `performAutonomousRollback` has read the
registry, or one watcher callback delivered at another time (between iterations, or
before the iteration reads the registry). -/
inductive Event where
  | evaluate (name : String) (q : SLOQueries) (env : RollbackEnv) (during : List WatchEvent)
  | watcher (w : WatchEvent)
deriving Repr, DecidableEq

/-- Effect of one event. -/
def step (c : Controller) : Event → Controller
  | .evaluate name q env during => (evaluateDeploymentDuring c name q env during).1
  | .watcher w => watchDeployments c w

/-- Effect of a sequence of events. -/
def run (c : Controller) (events : List Event) : Controller := events.foldl step c

/-- The workload and finalization time of the rollback an event completes, if it does. -/
def completedRollback (c : Controller) : Event → Option (String × Time)
  | .evaluate name q env during =>
    match (evaluateDeploymentDuring c name q env during).2 with
    | some r => if r.exit = .completed then some (name, env.nowFinalize) else none
    | none => none
  | .watcher _ => none

/-- Whether an event delivers a deletion of the workload `name`. -/
def deletes (name : String) : Event → Bool
  | .evaluate _ _ _ during => decide (WatchEvent.deleted name ∈ during)
  | .watcher w => decide (w = .deleted name)

/-- The clock readings of a sequence of events never go back, starting at `t`. -/
def clockMonotone (t : Time) : List Event → Bool
  | [] => true
  | .evaluate _ _ env _ :: rest =>
    decide (t ≤ env.nowCooldown) && decide (env.nowCooldown ≤ env.nowFinalize) &&
      clockMonotone env.nowFinalize rest
  | .watcher _ :: rest => clockMonotone t rest

/-- The rollbacks a sequence of events completes, in order, each with its workload and
finalization time. -/
def completedRollbacks (c : Controller) : List Event → List (String × Time)
  | [] => []
  | e :: rest => (completedRollback c e).toList ++ completedRollbacks (step c e) rest

/-- The second value `evaluateSLOs` returns, its error: the only `return` of the function
is `return violations, nil`. -/
def evaluateSLOsError (_c : Controller) (_q : SLOQueries) : Option String := none

/-- The three SLO names `evaluateSLOs` evaluates, in its order. -/
def sloNames : List String := ["success_rate", "latency_p95", "error_rate"]

/-- The query `evaluateSLOs` makes for the SLO named `s`. -/
def sloQuery (q : SLOQueries) (s : String) : Except String QueryValue :=
  if s = "success_rate" then q.successRate
  else if s = "latency_p95" then q.latencyP95
  else q.errorRate

/-- The comparison `evaluateSLOs` applies to the value `v` read for the SLO named `s`:
below the threshold for the success rate, above it for the latency and the error rate. -/
def beyondThreshold (config : Config) (s : String) (v : F64) : Bool :=
  if s = "success_rate" then F64.lt v (config.SLOs.getD s {}).Threshold
  else F64.lt (config.SLOs.getD s {}).Threshold v

/-- Whether the block of `evaluateSLOs` for the SLO named `s` records a violation: the
query succeeded and its value is beyond the threshold. -/
def sloViolated (config : Config) (q : SLOQueries) (s : String) : Bool :=
  decide (s ∈ sloNames) &&
    match queryPrometheus (sloQuery q s) with
    | .ok v => beyondThreshold config s v
    | .error _ => false

/-- Successive iterations of the reconciler's loop on one deployment, one per pair of
query outcomes and rollback environment: their results in order. -/
def tickResults (c : Controller) (name : String) :
    List (SLOQueries × RollbackEnv) → List (Controller × Option RollbackResult)
  | [] => []
  | t :: rest =>
    let r := evaluateDeployment c name t.1 t.2
    r :: tickResults r.1 name rest

/-- The controller left by successive iterations of the reconciler's loop on one
deployment. -/
def tickController (c : Controller) (name : String) :
    List (SLOQueries × RollbackEnv) → Controller
  | [] => c
  | t :: rest => tickController (evaluateDeployment c name t.1 t.2).1 name rest

/-! ## Sample inputs -/

/-- A ruleset whose second route has a single destination without subset. -/
def plainRuleset : VirtualService :=
  ⟨[⟨[{ Destination := ⟨"ecommerce-app", "stable"⟩, Weight := 90 },
      { Destination := ⟨"ecommerce-app", "canary"⟩, Weight := 10 }]⟩,
    ⟨[{ Destination := ⟨"payments", ""⟩, Weight := 100 }]⟩]⟩

/-- A ruleset in which no destination names a subset. -/
def unmanagedRuleset : VirtualService :=
  ⟨[⟨[{ Destination := ⟨"payments", ""⟩, Weight := 100 }]⟩]⟩

/-- A clock reading on the first day of 2026. -/
def sampleNow : Time := 63900000000000000000

/-- Three consecutive failures of the success rate trigger a rollback. -/
def sampleConfig : Config :=
  { SLOs := ⟨[("success_rate", { Threshold := .finite 99 0, ConsecutiveFailures := 3 })]⟩ }

/-- A workload at revision 3. -/
def sampleDeployment : Deployment :=
  { Annotations := ⟨[(revisionKey, "3")]⟩, Containers := [{ Image := "repo/app:v1.2.3" }] }

/-- An environment in which every call succeeds, serving ruleset `vs` at time `t`. -/
def sampleEnv (vs : VirtualService) (t : Time) : RollbackEnv :=
  ⟨t, .ok vs, none, .ok sampleDeployment, none, .ok vs, none, t⟩

/-- A controller whose workload `svc-a` has two counted failures of the success rate. -/
def armedController : Controller :=
  { config := sampleConfig
    deploymentStates :=
      ⟨[("svc-a", { Name := "svc-a", Namespace := "ecommerce",
                    SLOViolations := ⟨[("success_rate", 2)]⟩ })]⟩ }

/-- The violation map of a cycle in which only the success rate is violated. -/
def successRateViolation : GoMap Bool := ⟨[("success_rate", true)]⟩

/-- A controller whose workload `svc-a` has two counted failures and is already redirected
to the secondary cluster. -/
def redirectedController : Controller :=
  { config := sampleConfig
    deploymentStates :=
      ⟨[("svc-a", { Name := "svc-a", Namespace := "ecommerce",
                    SLOViolations := ⟨[("success_rate", 2)]⟩, CrossClusterActive := true })]⟩ }

/-- A configuration asking for five failures of the success rate, three of the latency,
and setting no count for the error rate. -/
def zeroCountConfig : Config :=
  { SLOs := ⟨[("success_rate", { Threshold := .finite 99 0, ConsecutiveFailures := 5 }),
              ("latency_p95", { Threshold := .finite 200 0, ConsecutiveFailures := 3 }),
              ("error_rate", { Threshold := .finite 1 0, ConsecutiveFailures := 0 })]⟩ }

/-- Thirty seconds, the period of the reconciler, in nanoseconds. -/
def tick : Duration := 30 * 1000000000

/-- Query outcomes of a cycle in which the success rate reads 97 and the other two
queries fail. -/
def lowSuccessRate : SLOQueries :=
  ⟨.ok (.vector [.finite 97 0]), .error "timeout", .error "timeout"⟩

/-- Three cycles with a low success rate end in a rollback; the workload is deleted and
created again under the same name; three more cycles end in a second rollback. -/
def recreatedRun : List Event :=
  [.evaluate "svc-a" lowSuccessRate (sampleEnv plainRuleset sampleNow) [],
    .evaluate "svc-a" lowSuccessRate (sampleEnv plainRuleset (sampleNow + tick)) [],
    .evaluate "svc-a" lowSuccessRate (sampleEnv plainRuleset (sampleNow + 2 * tick)) [],
    .watcher (.deleted "svc-a"),
    .watcher (.added "svc-a"),
    .evaluate "svc-a" lowSuccessRate (sampleEnv plainRuleset (sampleNow + 3 * tick)) [],
    .evaluate "svc-a" lowSuccessRate (sampleEnv plainRuleset (sampleNow + 4 * tick)) [],
    .evaluate "svc-a" lowSuccessRate (sampleEnv plainRuleset (sampleNow + 5 * tick)) []]

/-- Three cycles with a low success rate end in a rollback, and the deletion of the
workload is delivered while that rollback is running; no watcher callback follows, and
three more cycles end in a second rollback. -/
def detachedRun : List Event :=
  [.evaluate "svc-a" lowSuccessRate (sampleEnv plainRuleset sampleNow) [],
    .evaluate "svc-a" lowSuccessRate (sampleEnv plainRuleset (sampleNow + tick)) [],
    .evaluate "svc-a" lowSuccessRate (sampleEnv plainRuleset (sampleNow + 2 * tick))
      [.deleted "svc-a"],
    .evaluate "svc-a" lowSuccessRate (sampleEnv plainRuleset (sampleNow + 3 * tick)) [],
    .evaluate "svc-a" lowSuccessRate (sampleEnv plainRuleset (sampleNow + 4 * tick)) [],
    .evaluate "svc-a" lowSuccessRate (sampleEnv plainRuleset (sampleNow + 5 * tick)) []]

/-- The workload is updated and evaluated twice more, one and two periods after
`sampleNow`, another workload being deleted during the second evaluation. -/
def steadyRun : List Event :=
  [.watcher (.updated "svc-a"),
    .evaluate "svc-a" lowSuccessRate (sampleEnv plainRuleset (sampleNow + tick)) [],
    .evaluate "svc-a" lowSuccessRate (sampleEnv plainRuleset (sampleNow + 2 * tick))
      [.deleted "svc-b"]]

/-- Two failures of the latency above 200 ms trigger a rollback. -/
def latencyConfig : Config :=
  { SLOs := ⟨[("success_rate", { Threshold := .finite 99 0, ConsecutiveFailures := 3 }),
              ("latency_p95", { Threshold := .finite 200 0, ConsecutiveFailures := 2 }),
              ("error_rate", { Threshold := .finite 1 0, ConsecutiveFailures := 3 })]⟩ }

/-- Query outcomes of a cycle in which the latency reads 250 ms and the other two SLOs
are within their thresholds. -/
def highLatency : SLOQueries :=
  ⟨.ok (.vector [.finite 999 0]), .ok (.vector [.finite 250 0]), .ok (.scalar (.finite 0 0))⟩

/-- Query outcomes of a cycle in which the latency query fails and the other two SLOs are
within their thresholds. -/
def latencyUnavailable : SLOQueries :=
  ⟨.ok (.vector [.finite 999 0]), .error "timeout", .ok (.scalar (.finite 0 0))⟩

/-- Query outcomes of a cycle in which the success rate and the latency are violated and
the error rate has no data. -/
def twoViolations : SLOQueries :=
  ⟨.ok (.vector [.finite 97 0]), .ok (.scalar (.finite 250 0)), .ok (.vector [])⟩

/-! ## Lemmas on Go maps -/

namespace GoMap

variable {α : Type}

theorem find_put_same (k : String) (v : α) (l : List (String × α)) :
    find k (put k v l) = some v := by
  induction l with
  | nil => simp [put, find]
  | cons e rest ih =>
    obtain ⟨k0, v0⟩ := e
    by_cases h : k0 = k
    · simp [put, find, h]
    · simp [put, find, h, ih]

theorem find_put_other {k k1 : String} (h : k ≠ k1) (v : α) (l : List (String × α)) :
    find k1 (put k v l) = find k1 l := by
  induction l with
  | nil => simp [put, find, h]
  | cons e rest ih =>
    obtain ⟨k0, v0⟩ := e
    by_cases h0 : k0 = k
    · subst h0
      simp [put, find, h]
    · by_cases h1 : k0 = k1
      · subst h1
        simp [put, find, h0]
      · simp [put, find, h0, h1, ih]

theorem lookup_insert_same (m : GoMap α) (k : String) (v : α) :
    (m.insert k v).lookup k = some v :=
  find_put_same k v m.entries

theorem lookup_insert_other (m : GoMap α) {k k1 : String} (h : k ≠ k1) (v : α) :
    (m.insert k v).lookup k1 = m.lookup k1 :=
  find_put_other h v m.entries

theorem mem_distinctKeys (k : String) (l : List (String × α)) :
    k ∈ distinctKeys l ↔ ∃ v, find k l = some v := by
  induction l with
  | nil => simp [distinctKeys, find]
  | cons e rest ih =>
    obtain ⟨k0, v0⟩ := e
    by_cases h : k0 = k
    · subst h
      by_cases hm : k0 ∈ distinctKeys rest <;> simp [distinctKeys, find, hm]
    · have hne : ¬ k = k0 := fun hh => h hh.symm
      by_cases hm : k0 ∈ distinctKeys rest <;> simp [distinctKeys, find, hm, h, hne, ih]

theorem nodup_distinctKeys (l : List (String × α)) : (distinctKeys l).Nodup := by
  induction l with
  | nil => simp [distinctKeys]
  | cons e rest ih =>
    obtain ⟨k0, v0⟩ := e
    by_cases hm : k0 ∈ distinctKeys rest
    · simpa [distinctKeys, hm] using ih
    · simp [distinctKeys, hm, ih]

theorem mem_keys (m : GoMap α) (k : String) : k ∈ m.keys ↔ ∃ v, m.lookup k = some v :=
  mem_distinctKeys k m.entries

theorem nodup_keys (m : GoMap α) : m.keys.Nodup := nodup_distinctKeys m.entries

theorem lookup_setAll (m : GoMap α) (v : α) (k : String) :
    (m.setAll v).lookup k = (m.lookup k).map (fun _ => v) := by
  obtain ⟨l⟩ := m
  simp only [setAll, lookup]
  induction l with
  | nil => simp [find]
  | cons e rest ih =>
    obtain ⟨k0, v0⟩ := e
    by_cases h : k0 = k <;> simp [find, h, ih]

theorem lookup_erase_same (m : GoMap α) (k : String) : (m.erase k).lookup k = none := by
  obtain ⟨l⟩ := m
  simp only [erase, lookup]
  induction l with
  | nil => simp [find]
  | cons e rest ih =>
    obtain ⟨k0, v0⟩ := e
    by_cases h : k0 = k <;> simp [remove, find, h, ih]

theorem lookup_erase_other (m : GoMap α) {k k1 : String} (h : k ≠ k1) :
    (m.erase k).lookup k1 = m.lookup k1 := by
  obtain ⟨l⟩ := m
  simp only [erase, lookup]
  induction l with
  | nil => simp [find]
  | cons e rest ih =>
    obtain ⟨k0, v0⟩ := e
    by_cases h0 : k0 = k
    · subst h0
      simp [remove, find, h, ih]
    · by_cases h1 : k0 = k1
      · subst h1
        simp [remove, find, h0]
      · simp [remove, find, h0, h1, ih]

end GoMap

/-! ## Lemmas on the rollback policy -/

theorem lookup_foldl_increment (s : String) (ks : List String) (hks : ks.Nodup)
    (m : GoMap Int) :
    (ks.foldl (fun m k => m.insert k (m.getD k 0 + 1)) m).lookup s =
      if s ∈ ks then some (m.getD s 0 + 1) else m.lookup s := by
  induction ks generalizing m with
  | nil => simp
  | cons k rest ih =>
    rw [List.nodup_cons] at hks
    rw [List.foldl_cons, ih hks.2]
    by_cases hsk : s = k
    · subst hsk
      simp [hks.1, GoMap.lookup_insert_same]
    · have hks1 : k ≠ s := fun h => hsk h.symm
      simp [hsk, GoMap.getD, GoMap.lookup_insert_other _ hks1]

theorem lookup_incrementViolations (counts : GoMap Int) (violations : GoMap Bool)
    (s : String) :
    (incrementViolations counts violations).lookup s =
      if s ∈ violations.keys then some (counts.getD s 0 + 1) else counts.lookup s :=
  lookup_foldl_increment s violations.keys (GoMap.nodup_keys violations) counts

theorem shouldRollback_iff (config : Config) (counts : GoMap Int) :
    shouldRollback config counts = true ↔
      ∃ s v, counts.lookup s = some v ∧ (config.SLOs.getD s {}).ConsecutiveFailures ≤ v := by
  simp only [shouldRollback, List.any_eq_true, GoMap.mem_keys, decide_eq_true_eq]
  constructor
  · rintro ⟨s, ⟨v, hv⟩, hle⟩
    exact ⟨s, v, hv, by simpa [GoMap.getD, hv] using hle⟩
  · rintro ⟨s, v, hv, hle⟩
    exact ⟨s, ⟨v, hv⟩, by simpa [GoMap.getD, hv] using hle⟩

theorem since_not_lt (now t : Time) (h : ¬ since now t < tenMinutes) :
    t + tenMinutes ≤ now := by
  unfold since at h
  unfold maxDuration minDuration tenMinutes Duration Time at *
  split_ifs at h <;> omega

theorem since_lt (now t : Time) (h : now < t + tenMinutes) : since now t < tenMinutes := by
  unfold since
  unfold maxDuration minDuration tenMinutes Duration Time at *
  split_ifs <;> omega

theorem perform_noTrigger (c : Controller) (env : RollbackEnv) (deployment : String)
    (violations : GoMap Bool)
    (h : shouldRollback c.config (countedState c deployment violations).SLOViolations = false) :
    performAutonomousRollback c env deployment violations =
      ⟨withState c deployment (countedState c deployment violations), none, [], .noTrigger⟩ := by
  simp [performAutonomousRollback, h]

theorem perform_cooldown (c : Controller) (env : RollbackEnv) (deployment : String)
    (violations : GoMap Bool)
    (h : shouldRollback c.config (countedState c deployment violations).SLOViolations = true)
    (hc : since env.nowCooldown (countedState c deployment violations).LastRollback <
      tenMinutes) :
    performAutonomousRollback c env deployment violations =
      ⟨withState c deployment (countedState c deployment violations), none, [], .cooldown⟩ := by
  simp [performAutonomousRollback, h, hc]

theorem perform_trafficFailed (c : Controller) (env : RollbackEnv) (deployment : String)
    (violations : GoMap Bool) (e : String) (calls1 : List ApiCall)
    (h : shouldRollback c.config (countedState c deployment violations).SLOViolations = true)
    (hc : ¬ since env.nowCooldown (countedState c deployment violations).LastRollback <
      tenMinutes)
    (h1 : rollbackTrafficRouting env.getRouting env.updateRouting = (some e, calls1)) :
    performAutonomousRollback c env deployment violations =
      ⟨withState c deployment (countedState c deployment violations),
        some ("failed to rollback traffic routing: " ++ e), calls1, .trafficFailed⟩ := by
  simp [performAutonomousRollback, h, hc, h1]

theorem perform_deploymentFailed (c : Controller) (env : RollbackEnv) (deployment : String)
    (violations : GoMap Bool) (e : String) (calls1 calls2 : List ApiCall)
    (h : shouldRollback c.config (countedState c deployment violations).SLOViolations = true)
    (hc : ¬ since env.nowCooldown (countedState c deployment violations).LastRollback <
      tenMinutes)
    (h1 : rollbackTrafficRouting env.getRouting env.updateRouting = (none, calls1))
    (h2 : rollbackDeployment deployment env.getDeploy env.updateDeploy = (some e, calls2)) :
    performAutonomousRollback c env deployment violations =
      ⟨withState c deployment (countedState c deployment violations),
        some ("failed to rollback deployment: " ++ e), calls1 ++ calls2,
        .deploymentFailed⟩ := by
  simp [performAutonomousRollback, h, hc, h1, h2]

theorem perform_completed (c : Controller) (env : RollbackEnv) (deployment : String)
    (violations : GoMap Bool) (calls1 calls2 : List ApiCall)
    (h : shouldRollback c.config (countedState c deployment violations).SLOViolations = true)
    (hc : ¬ since env.nowCooldown (countedState c deployment violations).LastRollback <
      tenMinutes)
    (h1 : rollbackTrafficRouting env.getRouting env.updateRouting = (none, calls1))
    (h2 : rollbackDeployment deployment env.getDeploy env.updateDeploy = (none, calls2)) :
    performAutonomousRollback c env deployment violations =
      ⟨{ withState c deployment
            (finalizedState (countedState c deployment violations) env.nowFinalize) with
          rollbacksTotal := c.rollbacksTotal + 1 },
        none,
        calls1 ++ calls2 ++
          (if (countedState c deployment violations).CrossClusterActive then
            (performCrossClusterFailover c.config env.getFailover env.updateFailover).2
          else []) ++ [rollbackEvent deployment],
        .completed⟩ := by
  simp [performAutonomousRollback, h, hc, h1, h2]

theorem lookup_withState_same (c : Controller) (deployment : String) (st : DeploymentState) :
    (withState c deployment st).deploymentStates.lookup deployment = some st :=
  GoMap.lookup_insert_same _ _ _

theorem lookup_withState_other (c : Controller) {deployment other : String}
    (h : deployment ≠ other) (st : DeploymentState) :
    (withState c deployment st).deploymentStates.lookup other =
      c.deploymentStates.lookup other :=
  GoMap.lookup_insert_other _ h _

/-! ## Step 1: the persisted ruleset -/

theorem resetDestination_destination (r : HTTPRouteDestination) :
    (resetDestination r).Destination = r.Destination := by
  unfold resetDestination
  dsimp only
  split_ifs <;> rfl

theorem resetDestination_headers (r : HTTPRouteDestination) :
    (resetDestination r).Headers = r.Headers := by
  unfold resetDestination
  dsimp only
  split_ifs <;> rfl

theorem not_canary_and_stable (r : HTTPRouteDestination) :
    ¬ (isCanaryOrGreen r = true ∧ isStableOrBlue r = true) := by
  simp only [isCanaryOrGreen, isStableOrBlue, Bool.or_eq_true, beq_iff_eq]
  rintro ⟨h1 | h1, h2 | h2⟩ <;> rw [h1] at h2 <;> exact absurd h2 (by decide)

theorem resetDestination_weight (r : HTTPRouteDestination) :
    (resetDestination r).Weight =
      if isCanaryOrGreen r then 0 else if isStableOrBlue r then 100 else r.Weight := by
  have hx := not_canary_and_stable r
  unfold resetDestination
  by_cases h1 : isCanaryOrGreen r <;> by_cases h2 : isStableOrBlue r <;>
    simp_all [isStableOrBlue]

theorem isStableOrBlue_reset (r : HTTPRouteDestination) :
    isStableOrBlue (resetDestination r) = isStableOrBlue r := by
  simp [isStableOrBlue, resetDestination_destination]

theorem isCanaryOrGreen_reset (r : HTTPRouteDestination) :
    isCanaryOrGreen (resetDestination r) = isCanaryOrGreen r := by
  simp [isCanaryOrGreen, resetDestination_destination]

theorem resetDestination_unmanaged (r : HTTPRouteDestination)
    (h1 : isCanaryOrGreen r = false) (h2 : isStableOrBlue r = false) :
    resetDestination r = r := by
  unfold resetDestination
  simp [h1, h2]

theorem managed_weight_sum (l : List HTTPRouteDestination) :
    (((l.map resetDestination).filter
        (fun r => isStableOrBlue r || isCanaryOrGreen r)).map (fun r => r.Weight)).sum =
      100 * (((l.map resetDestination).filter isStableOrBlue).length : Int) := by
  induction l with
  | nil => simp
  | cons r rest ih =>
    have hx := not_canary_and_stable r
    have hw := resetDestination_weight r
    by_cases h1 : isCanaryOrGreen r = true <;> by_cases h2 : isStableOrBlue r = true
    · exact absurd ⟨h1, h2⟩ hx
    · simp only [List.map_cons, List.filter_cons, isStableOrBlue_reset, isCanaryOrGreen_reset,
        h1, h2, Bool.or_true, if_true, List.sum_cons, hw, ih]
      simp
    · simp only [List.map_cons, List.filter_cons, isStableOrBlue_reset, isCanaryOrGreen_reset,
        h1, h2, Bool.true_or, if_true, List.sum_cons, hw, ih, List.length_cons]
      simp only [Bool.not_eq_true] at h1
      simp [h1]
      ring
    · simp only [List.map_cons, List.filter_cons, isStableOrBlue_reset, isCanaryOrGreen_reset,
        h1, h2, Bool.or_self]
      simpa using ih

/-- C6: the ruleset `rollbackTrafficRouting` hands to `Update` has the routes and
destinations of the fetched one, in the same order, each destination with its host,
subset and headers unchanged and with weight 0 if its subset is canary or green, 100 if
its subset is stable or blue, and its fetched weight otherwise. -/
theorem rollbackTrafficRouting_persists_reset (vs : VirtualService) (update : Option String) :
    ∃ persisted : VirtualService,
      (rollbackTrafficRouting (.ok vs) update).2 =
          [.getVirtualService, .updateVirtualService persisted] ∧
        List.Forall₂
          (fun (h h1 : HTTPRoute) =>
            List.Forall₂
              (fun (r r1 : HTTPRouteDestination) =>
                r1.Destination.Host = r.Destination.Host ∧
                  r1.Destination.Subset = r.Destination.Subset ∧
                  r1.Headers = r.Headers ∧
                  r1.Weight =
                    if r.Destination.Subset = "canary" ∨ r.Destination.Subset = "green" then 0
                    else if r.Destination.Subset = "stable" ∨ r.Destination.Subset = "blue"
                      then 100
                    else r.Weight)
              h.Route h1.Route)
          vs.Http persisted.Http := by
  refine ⟨resetTraffic vs, rfl, ?_⟩
  simp only [resetTraffic, List.forall₂_map_right_iff, List.forall₂_same]
  intro h _ r _
  refine ⟨by rw [resetDestination_destination], by rw [resetDestination_destination],
    resetDestination_headers r, ?_⟩
  rw [resetDestination_weight]
  simp [isCanaryOrGreen, isStableOrBlue]

/-- C7, as stated, fails: `rollbackTrafficRouting` succeeds on a ruleset with a route to
a destination without subset, and in that route of the persisted ruleset the weights over
stable, blue, canary and green sum to 0, not 100. -/
theorem managed_weights_need_not_sum_to_100 :
    rollbackTrafficRouting (.ok plainRuleset) none =
        (none, [.getVirtualService, .updateVirtualService (resetTraffic plainRuleset)]) ∧
      ∃ h ∈ (resetTraffic plainRuleset).Http,
        ((h.Route.filter (fun r => isStableOrBlue r || isCanaryOrGreen r)).map
          (fun r => r.Weight)).sum = 0 := by
  refine ⟨rfl, ⟨[{ Destination := ⟨"payments", ""⟩, Weight := 100 }]⟩, by decide, by decide⟩

/-- C7, amended: in every route of the ruleset `rollbackTrafficRouting` hands to `Update`,
each canary or green destination has weight 0, each stable or blue destination has weight
100, and the weights over stable, blue, canary and green sum to 100 times the number of
stable or blue destinations of the route: to exactly 100 when there is exactly one. -/
theorem persisted_route_weights (vs persisted : VirtualService) (update : Option String)
    (hp : ApiCall.updateVirtualService persisted ∈
      (rollbackTrafficRouting (.ok vs) update).2) :
    ∀ h ∈ persisted.Http,
      (∀ r ∈ h.Route, isCanaryOrGreen r = true → r.Weight = 0) ∧
        (∀ r ∈ h.Route, isStableOrBlue r = true → r.Weight = 100) ∧
        ((h.Route.filter (fun r => isStableOrBlue r || isCanaryOrGreen r)).map
            (fun r => r.Weight)).sum = 100 * ((h.Route.filter isStableOrBlue).length : Int) ∧
        ((h.Route.filter isStableOrBlue).length = 1 →
          ((h.Route.filter (fun r => isStableOrBlue r || isCanaryOrGreen r)).map
            (fun r => r.Weight)).sum = 100) := by
  have hpe : persisted = resetTraffic vs := by
    simpa [rollbackTrafficRouting] using hp
  subst hpe
  intro h hh
  simp only [resetTraffic, List.mem_map] at hh
  obtain ⟨h0, _, rfl⟩ := hh
  have hsum := managed_weight_sum h0.Route
  refine ⟨?_, ?_, hsum, ?_⟩
  · intro r hr hc
    simp only [List.mem_map] at hr
    obtain ⟨r0, _, rfl⟩ := hr
    rw [isCanaryOrGreen_reset] at hc
    rw [resetDestination_weight, if_pos hc]
  · intro r hr hs
    simp only [List.mem_map] at hr
    obtain ⟨r0, _, rfl⟩ := hr
    rw [isStableOrBlue_reset] at hs
    have hx := not_canary_and_stable r0
    have hc : ¬ isCanaryOrGreen r0 = true := fun hc => hx ⟨hc, hs⟩
    rw [resetDestination_weight, if_neg hc, if_pos hs]
  · intro hone
    rw [hsum]
    simp only at hone
    rw [hone]
    rfl

theorem persisted_route_weights_witness :
    ApiCall.updateVirtualService (resetTraffic plainRuleset) ∈
        (rollbackTrafficRouting (.ok plainRuleset) none).2 ∧
      ∀ h ∈ (resetTraffic plainRuleset).Http,
        (∀ r ∈ h.Route, isCanaryOrGreen r = true → r.Weight = 0) ∧
          (∀ r ∈ h.Route, isStableOrBlue r = true → r.Weight = 100) ∧
          ((h.Route.filter (fun r => isStableOrBlue r || isCanaryOrGreen r)).map
              (fun r => r.Weight)).sum =
            100 * ((h.Route.filter isStableOrBlue).length : Int) ∧
          ((h.Route.filter isStableOrBlue).length = 1 →
            ((h.Route.filter (fun r => isStableOrBlue r || isCanaryOrGreen r)).map
              (fun r => r.Weight)).sum = 100) :=
  ⟨by decide, persisted_route_weights plainRuleset (resetTraffic plainRuleset) none (by decide)⟩

/-- C8, as stated, fails: on a ruleset in which no destination names a subset,
`rollbackTrafficRouting` returns no error, and the rollback goes on to the deployment. -/
theorem unmanaged_ruleset_is_no_error :
    rollbackTrafficRouting (.ok unmanagedRuleset) none =
        (none, [.getVirtualService, .updateVirtualService unmanagedRuleset]) ∧
      ApiCall.getDeployment "svc-a" ∈
        (performAutonomousRollback armedController (sampleEnv unmanagedRuleset sampleNow)
          "svc-a" successRateViolation).calls := by
  constructor <;> decide

/-- C8, amended: `rollbackTrafficRouting` makes no check of the subsets.  Whatever ruleset
it fetched, it hands the reset ruleset to `Update` (the fetched ruleset itself when no
destination has subset stable, blue, canary or green) and returns the error of `Update`,
nil when `Update` succeeds; it fails only when `Get` or `Update` fails, and then
`performAutonomousRollback` makes no call on the deployment. -/
theorem rollbackTrafficRouting_error_is_api_error (vs : VirtualService)
    (update : Option String) :
    rollbackTrafficRouting (.ok vs) update =
        (update, [.getVirtualService, .updateVirtualService (resetTraffic vs)]) ∧
      ((∀ h ∈ vs.Http, ∀ r ∈ h.Route, isCanaryOrGreen r = false ∧ isStableOrBlue r = false) →
        resetTraffic vs = vs) ∧
      ∀ (c : Controller) (env : RollbackEnv) (deployment : String) (violations : GoMap Bool),
        (rollbackTrafficRouting env.getRouting env.updateRouting).1 ≠ none →
        ∀ call ∈ (performAutonomousRollback c env deployment violations).calls,
          call = .getVirtualService ∨ ∃ v, call = .updateVirtualService v := by
  refine ⟨rfl, ?_, ?_⟩
  · intro hun
    obtain ⟨routes⟩ := vs
    simp only [resetTraffic, VirtualService.mk.injEq]
    conv_rhs => rw [← List.map_id routes]
    apply List.map_congr_left
    intro h hh
    obtain ⟨dests⟩ := h
    simp only [id, HTTPRoute.mk.injEq]
    conv_rhs => rw [← List.map_id dests]
    apply List.map_congr_left
    intro r hr
    exact resetDestination_unmanaged r (hun _ hh r hr).1 (hun _ hh r hr).2
  · intro c env deployment violations hfail call hcall
    by_cases htrig :
        shouldRollback c.config (countedState c deployment violations).SLOViolations = true
    · by_cases hcool :
          since env.nowCooldown (countedState c deployment violations).LastRollback < tenMinutes
      · rw [perform_cooldown c env deployment violations htrig hcool] at hcall
        simp at hcall
      · cases hr : rollbackTrafficRouting env.getRouting env.updateRouting with
        | mk e calls1 =>
          rw [hr] at hfail
          cases e with
          | none => exact absurd rfl hfail
          | some e =>
            rw [perform_trafficFailed c env deployment violations e calls1 htrig hcool hr]
              at hcall
            simp only at hcall
            have hc1 : calls1 = (rollbackTrafficRouting env.getRouting env.updateRouting).2 := by
              rw [hr]
            rw [hc1] at hcall
            unfold rollbackTrafficRouting at hcall
            split at hcall
            · simp only [List.mem_singleton] at hcall
              exact Or.inl hcall
            · simp only [List.mem_cons, List.mem_singleton, List.not_mem_nil, or_false] at hcall
              rcases hcall with hcall | hcall
              · exact Or.inl hcall
              · exact Or.inr ⟨_, hcall⟩
    · simp only [Bool.not_eq_true] at htrig
      rw [perform_noTrigger c env deployment violations htrig] at hcall
      simp at hcall

theorem rollbackTrafficRouting_error_is_api_error_witness :
    rollbackTrafficRouting (.ok unmanagedRuleset) none =
        (none, [.getVirtualService, .updateVirtualService unmanagedRuleset]) ∧
      ∀ call ∈ (performAutonomousRollback armedController
          { sampleEnv unmanagedRuleset sampleNow with updateRouting := some "conflict" }
          "svc-a" successRateViolation).calls,
        call = .getVirtualService ∨ ∃ v, call = .updateVirtualService v :=
  ⟨(rollbackTrafficRouting_error_is_api_error unmanagedRuleset none).1,
    (rollbackTrafficRouting_error_is_api_error unmanagedRuleset none).2.2 armedController
      { sampleEnv unmanagedRuleset sampleNow with updateRouting := some "conflict" }
      "svc-a" successRateViolation (by decide)⟩

/-! ## The executor: completion, failed steps, failover -/

theorem rollbackDeployment_calls_not_routing (deployment : String)
    (get : Except String Deployment) (update : Option String) :
    (rollbackDeployment deployment get update).2.count ApiCall.getVirtualService = 0 := by
  unfold rollbackDeployment
  cases get with
  | error e => simp
  | ok deploy =>
    simp only
    split_ifs
    · simp
    · split
      · simp
      · split_ifs <;> simp

theorem rollbackTrafficRouting_ok_calls (get : Except String VirtualService)
    (update : Option String) (h : (rollbackTrafficRouting get update).1 = none) :
    (rollbackTrafficRouting get update).2.count ApiCall.getVirtualService = 1 := by
  cases get with
  | error e => simp [rollbackTrafficRouting] at h
  | ok vs => simp [rollbackTrafficRouting]

theorem performCrossClusterFailover_calls (config : Config)
    (get : Except String VirtualService) (update : Option String) :
    (performCrossClusterFailover config get update).2.count ApiCall.getVirtualService = 1 := by
  cases get with
  | error e => simp [performCrossClusterFailover]
  | ok vs => cases update <;> simp [performCrossClusterFailover]

/-- C3: when the trigger is reached, the cooldown has elapsed and steps 1 and 2 succeed,
`performAutonomousRollback` completes without error, and the state it leaves for the
deployment has every entry of `SLOViolations` at 0, `LastRollback` equal to the clock
reading taken at finalization and (the clock not going back) not earlier than before,
`ConsecutiveFailures` one more than before and `Phase` equal to "rolled-back"; the
rollback counter is one more than before. -/
theorem completed_rollback_finalizes (c : Controller) (env : RollbackEnv)
    (deployment : String) (violations : GoMap Bool)
    (htrig : shouldRollback c.config (countedState c deployment violations).SLOViolations = true)
    (hcool : ¬ since env.nowCooldown (stateOf c deployment).LastRollback < tenMinutes)
    (h1 : (rollbackTrafficRouting env.getRouting env.updateRouting).1 = none)
    (h2 : (rollbackDeployment deployment env.getDeploy env.updateDeploy).1 = none)
    (hclock : env.nowCooldown ≤ env.nowFinalize) :
    (performAutonomousRollback c env deployment violations).exit = .completed ∧
      (performAutonomousRollback c env deployment violations).err = none ∧
      (performAutonomousRollback c env deployment violations).controller.rollbacksTotal =
        c.rollbacksTotal + 1 ∧
      ∃ st,
        (performAutonomousRollback c env deployment violations).controller.deploymentStates.lookup
            deployment = some st ∧
          (∀ k v, st.SLOViolations.lookup k = some v → v = 0) ∧
          st.LastRollback = env.nowFinalize ∧
          (stateOf c deployment).LastRollback ≤ st.LastRollback ∧
          st.ConsecutiveFailures = (stateOf c deployment).ConsecutiveFailures + 1 ∧
          st.Phase = "rolled-back" := by
  have hr1 : rollbackTrafficRouting env.getRouting env.updateRouting =
      (none, (rollbackTrafficRouting env.getRouting env.updateRouting).2) := by
    rw [← h1]
  have hr2 : rollbackDeployment deployment env.getDeploy env.updateDeploy =
      (none, (rollbackDeployment deployment env.getDeploy env.updateDeploy).2) := by
    rw [← h2]
  rw [perform_completed c env deployment violations _ _ htrig hcool hr1 hr2]
  refine ⟨rfl, rfl, rfl, finalizedState (countedState c deployment violations) env.nowFinalize,
    lookup_withState_same _ _ _, ?_, rfl, ?_, rfl, rfl⟩
  · intro k v hv
    simp only [finalizedState, GoMap.lookup_setAll, Option.map_eq_some'] at hv
    obtain ⟨_, _, rfl⟩ := hv
    rfl
  · have := since_not_lt _ _ hcool
    simp only [finalizedState]
    unfold tenMinutes Duration Time at *
    omega

theorem completed_rollback_finalizes_witness :
    (performAutonomousRollback armedController (sampleEnv plainRuleset sampleNow) "svc-a"
        successRateViolation).exit = .completed ∧
      (performAutonomousRollback armedController (sampleEnv plainRuleset sampleNow) "svc-a"
        successRateViolation).controller.rollbacksTotal = 1 :=
  ⟨(completed_rollback_finalizes armedController (sampleEnv plainRuleset sampleNow) "svc-a"
      successRateViolation (by decide) (by decide) (by decide) (by decide) (by decide)).1,
    (completed_rollback_finalizes armedController (sampleEnv plainRuleset sampleNow) "svc-a"
      successRateViolation (by decide) (by decide) (by decide) (by decide) (by decide)).2.2.1⟩

/-- C4: when the trigger is reached and the cooldown has elapsed, and step 1 or step 2
fails, `performAutonomousRollback` returns an error; `LastRollback`, `Phase` and
`ConsecutiveFailures` of the deployment's state and the rollback counter are as before
the call; the only calls made are those of step 1, followed by those of step 2 when
step 1 succeeded (no failover, no event); and when step 1 fails there is no call of
step 2. -/
theorem failed_step_skips_finalization (c : Controller) (env : RollbackEnv)
    (deployment : String) (violations : GoMap Bool)
    (htrig : shouldRollback c.config (countedState c deployment violations).SLOViolations = true)
    (hcool : ¬ since env.nowCooldown (stateOf c deployment).LastRollback < tenMinutes)
    (hfail : (rollbackTrafficRouting env.getRouting env.updateRouting).1 ≠ none ∨
      (rollbackDeployment deployment env.getDeploy env.updateDeploy).1 ≠ none) :
    (performAutonomousRollback c env deployment violations).err ≠ none ∧
      (performAutonomousRollback c env deployment violations).controller.rollbacksTotal =
        c.rollbacksTotal ∧
      (∃ st,
        (performAutonomousRollback c env deployment violations).controller.deploymentStates.lookup
            deployment = some st ∧
          st.LastRollback = (stateOf c deployment).LastRollback ∧
          st.Phase = (stateOf c deployment).Phase ∧
          st.ConsecutiveFailures = (stateOf c deployment).ConsecutiveFailures) ∧
      (performAutonomousRollback c env deployment violations).calls =
        (rollbackTrafficRouting env.getRouting env.updateRouting).2 ++
          (if (rollbackTrafficRouting env.getRouting env.updateRouting).1 = none then
            (rollbackDeployment deployment env.getDeploy env.updateDeploy).2
          else []) ∧
      ((rollbackTrafficRouting env.getRouting env.updateRouting).1 ≠ none →
        (performAutonomousRollback c env deployment violations).calls =
          (rollbackTrafficRouting env.getRouting env.updateRouting).2) := by
  cases hr1 : rollbackTrafficRouting env.getRouting env.updateRouting with
  | mk e1 calls1 =>
    cases e1 with
    | some e1 =>
      rw [perform_trafficFailed c env deployment violations e1 calls1 htrig hcool hr1]
      exact ⟨by simp, rfl, ⟨_, lookup_withState_same _ _ _, rfl, rfl, rfl⟩, by simp,
        fun _ => rfl⟩
    | none =>
      rw [hr1] at hfail
      cases hr2 : rollbackDeployment deployment env.getDeploy env.updateDeploy with
      | mk e2 calls2 =>
        cases e2 with
        | some e2 =>
          rw [perform_deploymentFailed c env deployment violations e2 calls1 calls2 htrig
            hcool hr1 hr2]
          exact ⟨by simp, rfl, ⟨_, lookup_withState_same _ _ _, rfl, rfl, rfl⟩, by simp,
            fun h => absurd rfl h⟩
        | none =>
          rw [hr2] at hfail
          simp at hfail

theorem failed_step_skips_finalization_witness :
    (performAutonomousRollback armedController
        { sampleEnv plainRuleset sampleNow with getDeploy := .error "not found" } "svc-a"
        successRateViolation).err ≠ none ∧
      (performAutonomousRollback armedController
        { sampleEnv plainRuleset sampleNow with getDeploy := .error "not found" } "svc-a"
        successRateViolation).controller.rollbacksTotal = 0 :=
  ⟨(failed_step_skips_finalization armedController
      { sampleEnv plainRuleset sampleNow with getDeploy := .error "not found" } "svc-a"
      successRateViolation (by decide) (by decide) (by decide)).1,
    (failed_step_skips_finalization armedController
      { sampleEnv plainRuleset sampleNow with getDeploy := .error "not found" } "svc-a"
      successRateViolation (by decide) (by decide) (by decide)).2.1⟩

/-- C5: when the trigger is reached, the cooldown has elapsed and steps 1 and 2 succeed,
`performAutonomousRollback` returns no error, registers the finalized state and advances
the rollback counter by one, and the error and the controller it returns are the same
for every outcome `getFailover`, `updateFailover` of the failover calls; the failover is
attempted (a second fetch of the ruleset is made) exactly when `CrossClusterActive` is
set. -/
theorem failover_outcome_is_ignored (c : Controller) (env : RollbackEnv)
    (deployment : String) (violations : GoMap Bool)
    (getFailover : Except String VirtualService) (updateFailover : Option String)
    (htrig : shouldRollback c.config (countedState c deployment violations).SLOViolations = true)
    (hcool : ¬ since env.nowCooldown (stateOf c deployment).LastRollback < tenMinutes)
    (h1 : (rollbackTrafficRouting env.getRouting env.updateRouting).1 = none)
    (h2 : (rollbackDeployment deployment env.getDeploy env.updateDeploy).1 = none) :
    (performAutonomousRollback c env deployment violations).err = none ∧
      (performAutonomousRollback c env deployment violations).exit = .completed ∧
      (performAutonomousRollback c env deployment violations).controller.rollbacksTotal =
        c.rollbacksTotal + 1 ∧
      (performAutonomousRollback c env deployment violations).controller.deploymentStates.lookup
          deployment =
        some (finalizedState (countedState c deployment violations) env.nowFinalize) ∧
      (performAutonomousRollback c
          { env with getFailover := getFailover, updateFailover := updateFailover }
          deployment violations).err =
        (performAutonomousRollback c env deployment violations).err ∧
      (performAutonomousRollback c
          { env with getFailover := getFailover, updateFailover := updateFailover }
          deployment violations).controller =
        (performAutonomousRollback c env deployment violations).controller ∧
      (performAutonomousRollback c env deployment violations).calls =
        (rollbackTrafficRouting env.getRouting env.updateRouting).2 ++
          (rollbackDeployment deployment env.getDeploy env.updateDeploy).2 ++
          (if (stateOf c deployment).CrossClusterActive then
            (performCrossClusterFailover c.config env.getFailover env.updateFailover).2
          else []) ++ [rollbackEvent deployment] ∧
      ((performAutonomousRollback c env deployment violations).calls.count
          ApiCall.getVirtualService = 2 ↔ (stateOf c deployment).CrossClusterActive = true) ∧
      ((performAutonomousRollback c env deployment violations).calls.count
          ApiCall.getVirtualService = 1 ↔ (stateOf c deployment).CrossClusterActive = false) := by
  have hr1 : rollbackTrafficRouting env.getRouting env.updateRouting =
      (none, (rollbackTrafficRouting env.getRouting env.updateRouting).2) := by
    rw [← h1]
  have hr2 : rollbackDeployment deployment env.getDeploy env.updateDeploy =
      (none, (rollbackDeployment deployment env.getDeploy env.updateDeploy).2) := by
    rw [← h2]
  have hcount : (performAutonomousRollback c env deployment violations).calls.count
      ApiCall.getVirtualService = if (stateOf c deployment).CrossClusterActive then 2 else 1 := by
    rw [perform_completed c env deployment violations _ _ htrig hcool hr1 hr2]
    simp only [List.count_append, rollbackTrafficRouting_ok_calls _ _ h1,
      rollbackDeployment_calls_not_routing]
    have hs : (countedState c deployment violations).CrossClusterActive =
        (stateOf c deployment).CrossClusterActive := rfl
    rw [hs]
    cases (stateOf c deployment).CrossClusterActive
    · simp [rollbackEvent]
    · simp [rollbackEvent, performCrossClusterFailover_calls]
  rw [hcount]
  rw [perform_completed c env deployment violations _ _ htrig hcool hr1 hr2,
    perform_completed c { env with getFailover := getFailover, updateFailover := updateFailover }
      deployment violations _ _ htrig hcool hr1 hr2]
  refine ⟨rfl, rfl, rfl, lookup_withState_same _ _ _, rfl, rfl, rfl, ?_, ?_⟩ <;>
    cases (stateOf c deployment).CrossClusterActive <;> simp

theorem failover_outcome_is_ignored_witness :
    (performAutonomousRollback redirectedController (sampleEnv plainRuleset sampleNow) "svc-a"
        successRateViolation).err = none ∧
      (performAutonomousRollback redirectedController
          { sampleEnv plainRuleset sampleNow with
            getFailover := .error "unavailable", updateFailover := some "unavailable" }
          "svc-a" successRateViolation).controller =
        (performAutonomousRollback redirectedController (sampleEnv plainRuleset sampleNow) "svc-a"
          successRateViolation).controller :=
  ⟨(failover_outcome_is_ignored redirectedController (sampleEnv plainRuleset sampleNow) "svc-a"
      successRateViolation (.error "unavailable") (some "unavailable")
      (by decide) (by decide) (by decide) (by decide)).1,
    (failover_outcome_is_ignored redirectedController (sampleEnv plainRuleset sampleNow) "svc-a"
      successRateViolation (.error "unavailable") (some "unavailable")
      (by decide) (by decide) (by decide) (by decide)).2.2.2.2.2.1⟩

/-! ## The trigger -/

theorem perform_attempts (c : Controller) (env : RollbackEnv) (deployment : String)
    (violations : GoMap Bool)
    (htrig : shouldRollback c.config (countedState c deployment violations).SLOViolations = true)
    (hcool : ¬ since env.nowCooldown (stateOf c deployment).LastRollback < tenMinutes) :
    (performAutonomousRollback c env deployment violations).exit ≠ .noTrigger ∧
      (performAutonomousRollback c env deployment violations).exit ≠ .cooldown ∧
      (performAutonomousRollback c env deployment violations).controller.config = c.config ∧
      (performAutonomousRollback c env deployment violations).calls.head? =
        some .getVirtualService := by
  have hhead : ∀ g u, (rollbackTrafficRouting g u).2.head? = some ApiCall.getVirtualService := by
    intro g u
    cases g <;> rfl
  cases hr1 : rollbackTrafficRouting env.getRouting env.updateRouting with
  | mk e1 calls1 =>
    have hc1 : calls1.head? = some ApiCall.getVirtualService := by
      have := hhead env.getRouting env.updateRouting
      rwa [hr1] at this
    have hne : calls1 ≠ [] := by
      intro h
      rw [h] at hc1
      simp at hc1
    cases e1 with
    | some e1 =>
      rw [perform_trafficFailed c env deployment violations e1 calls1 htrig hcool hr1]
      exact ⟨by simp, by simp, rfl, hc1⟩
    | none =>
      cases hr2 : rollbackDeployment deployment env.getDeploy env.updateDeploy with
      | mk e2 calls2 =>
        cases e2 with
        | some e2 =>
          rw [perform_deploymentFailed c env deployment violations e2 calls1 calls2 htrig
            hcool hr1 hr2]
          refine ⟨by simp, by simp, rfl, ?_⟩
          simp only
          rw [List.head?_append_of_ne_nil _ hne, hc1]
        | none =>
          rw [perform_completed c env deployment violations calls1 calls2 htrig hcool hr1 hr2]
          refine ⟨by simp, by simp, rfl, ?_⟩
          simp only [List.append_assoc]
          rw [List.head?_append_of_ne_nil _ hne, hc1]

theorem exit_noTrigger_iff (c : Controller) (env : RollbackEnv) (deployment : String)
    (violations : GoMap Bool) :
    (performAutonomousRollback c env deployment violations).exit = .noTrigger ↔
      shouldRollback c.config (countedState c deployment violations).SLOViolations = false := by
  constructor
  · intro h
    by_contra hs
    simp only [Bool.not_eq_false] at hs
    by_cases hcool :
        since env.nowCooldown (countedState c deployment violations).LastRollback < tenMinutes
    · rw [perform_cooldown c env deployment violations hs hcool] at h
      simp at h
    · exact (perform_attempts c env deployment violations hs hcool).1 h
  · intro h
    rw [perform_noTrigger c env deployment violations h]

theorem perform_config (c : Controller) (env : RollbackEnv) (deployment : String)
    (violations : GoMap Bool) :
    (performAutonomousRollback c env deployment violations).controller.config = c.config := by
  by_cases hs :
      shouldRollback c.config (countedState c deployment violations).SLOViolations = true
  · by_cases hcool :
        since env.nowCooldown (countedState c deployment violations).LastRollback < tenMinutes
    · rw [perform_cooldown c env deployment violations hs hcool]
      rfl
    · exact (perform_attempts c env deployment violations hs hcool).2.2.1
  · simp only [Bool.not_eq_true] at hs
    rw [perform_noTrigger c env deployment violations hs]
    rfl

theorem stateOf_withState (c : Controller) (deployment : String) (st : DeploymentState) :
    stateOf (withState c deployment st) deployment = st := by
  simp [stateOf, lookup_withState_same]

theorem trigger_condition (c : Controller) (deployment : String) (violations : GoMap Bool) :
    shouldRollback c.config (countedState c deployment violations).SLOViolations = true ↔
      ∃ s,
        ((∃ v, (stateOf c deployment).SLOViolations.lookup s = some v) ∨ s ∈ violations.keys) ∧
          (c.config.SLOs.getD s {}).ConsecutiveFailures ≤
            (stateOf c deployment).SLOViolations.getD s 0 +
              (if s ∈ violations.keys then 1 else 0) := by
  rw [shouldRollback_iff]
  simp only [countedState, lookup_incrementViolations]
  constructor
  · rintro ⟨s, v, hv, hle⟩
    refine ⟨s, ?_⟩
    by_cases hs : s ∈ violations.keys
    · simp only [hs, if_true, Option.some.injEq] at hv
      subst hv
      exact ⟨Or.inr hs, by simpa [hs] using hle⟩
    · simp only [hs, if_false] at hv
      exact ⟨Or.inl ⟨v, hv⟩, by simpa [hs, GoMap.getD, hv] using hle⟩
  · rintro ⟨s, hpres, hle⟩
    by_cases hs : s ∈ violations.keys
    · exact ⟨s, (stateOf c deployment).SLOViolations.getD s 0 + 1, by simp [hs],
        by simpa [hs] using hle⟩
    · rcases hpres with ⟨v, hv⟩ | hin
      · exact ⟨s, v, by simp [hs, hv], by simpa [hs, GoMap.getD, hv] using hle⟩
      · exact absurd hin hs

theorem keys_single (s : String) : (⟨[(s, true)]⟩ : GoMap Bool).keys = [s] := by
  simp [GoMap.keys, GoMap.distinctKeys]

theorem counted_single (c : Controller) (deployment s : String) (k : Int)
    (hk : (stateOf c deployment).SLOViolations.getD s 0 = k)
    (hother : ∀ key, key ≠ s → (stateOf c deployment).SLOViolations.lookup key = none) :
    (countedState c deployment ⟨[(s, true)]⟩).SLOViolations.lookup s = some (k + 1) ∧
      ∀ key, key ≠ s →
        (countedState c deployment ⟨[(s, true)]⟩).SLOViolations.lookup key = none := by
  simp only [countedState, lookup_incrementViolations, keys_single, List.mem_singleton]
  refine ⟨by simp [hk], ?_⟩
  intro key hkey
  simp [hkey, hother key hkey]

theorem trigger_single (c : Controller) (deployment s : String) (k : Int)
    (hk : (stateOf c deployment).SLOViolations.getD s 0 = k)
    (hother : ∀ key, key ≠ s → (stateOf c deployment).SLOViolations.lookup key = none) :
    shouldRollback c.config (countedState c deployment ⟨[(s, true)]⟩).SLOViolations = true ↔
      (c.config.SLOs.getD s {}).ConsecutiveFailures ≤ k + 1 := by
  obtain ⟨hs, ho⟩ := counted_single c deployment s k hk hother
  rw [shouldRollback_iff]
  constructor
  · rintro ⟨key, v, hv, hle⟩
    by_cases hkey : key = s
    · subst hkey
      rw [hs] at hv
      cases hv
      exact hle
    · rw [ho key hkey] at hv
      cases hv
  · intro hle
    exact ⟨s, k + 1, hs, hle⟩

theorem no_trigger_below_count (deployment s : String) (n : Nat) (envs : List RollbackEnv) :
    ∀ (c : Controller) (k : Nat),
      (c.config.SLOs.getD s {}).ConsecutiveFailures = n →
      (stateOf c deployment).SLOViolations.getD s 0 = k →
      (∀ key, key ≠ s → (stateOf c deployment).SLOViolations.lookup key = none) →
      (stateOf c deployment).LastRollback = 0 →
      k + envs.length < n →
      (∀ r ∈ invokeAll c deployment ⟨[(s, true)]⟩ envs,
          r.exit = .noTrigger ∧ r.err = none ∧ r.calls = []) ∧
        (invokeAllController c deployment ⟨[(s, true)]⟩ envs).config = c.config ∧
        (stateOf (invokeAllController c deployment ⟨[(s, true)]⟩ envs)
            deployment).SLOViolations.getD s 0 = ((k + envs.length : Nat) : Int) ∧
        (∀ key, key ≠ s →
          (stateOf (invokeAllController c deployment ⟨[(s, true)]⟩ envs)
            deployment).SLOViolations.lookup key = none) ∧
        (stateOf (invokeAllController c deployment ⟨[(s, true)]⟩ envs)
          deployment).LastRollback = 0 := by
  induction envs with
  | nil =>
    intro c k _ hk hother hlast _
    exact ⟨by simp [invokeAll], rfl, by simpa [invokeAllController] using hk,
      by simpa [invokeAllController] using hother, by simpa [invokeAllController] using hlast⟩
  | cons env rest ih =>
    intro c k hcf hk hother hlast hlen
    simp only [List.length_cons] at hlen
    have hnot : shouldRollback c.config
        (countedState c deployment ⟨[(s, true)]⟩).SLOViolations = false := by
      rw [← Bool.not_eq_true, trigger_single c deployment s k hk hother, hcf]
      omega
    have hperf := perform_noTrigger c env deployment ⟨[(s, true)]⟩ hnot
    obtain ⟨hs, ho⟩ := counted_single c deployment s k hk hother
    have hstate : stateOf (withState c deployment (countedState c deployment ⟨[(s, true)]⟩))
        deployment = countedState c deployment ⟨[(s, true)]⟩ := stateOf_withState _ _ _
    have hih := ih (withState c deployment (countedState c deployment ⟨[(s, true)]⟩)) (k + 1)
      hcf (by rw [hstate]; simp [GoMap.getD, hs]) (by rw [hstate]; exact ho)
      (by rw [hstate]; exact hlast) (by omega)
    simp only [invokeAll, invokeAllController, hperf, List.mem_cons, forall_eq_or_imp]
    refine ⟨⟨⟨trivial, trivial, trivial⟩, hih.1⟩, hih.2.1, ?_, hih.2.2.2.1, hih.2.2.2.2⟩
    rw [hih.2.2.1]
    simp only [List.length_cons]
    push_cast
    omega

/-- C1, as stated, fails: with a configured count of 0 for the error rate, an SLO the
state has no entry for, the error rate's count (absent, so 0) has reached its configured
count, yet the invocation returns at the trigger check. -/
theorem uncounted_slo_does_not_trigger :
    (performAutonomousRollback { config := zeroCountConfig } (sampleEnv plainRuleset sampleNow)
        "svc-a" successRateViolation).exit = .noTrigger ∧
      (zeroCountConfig.SLOs.getD "error_rate" {}).ConsecutiveFailures ≤
        (countedState { config := zeroCountConfig } "svc-a"
          successRateViolation).SLOViolations.getD "error_rate" 0 := by
  constructor <;> decide

/-- C1, amended: after the counting loop, `performAutonomousRollback` proceeds past the
trigger check exactly when some SLO that has an entry in `SLOViolations` (it had one
before, or it is in the violation set) has a count, the previous count or 0 plus one if
it is in the violation set, at least its configured `ConsecutiveFailures` (0 for an SLO
absent from the configuration); otherwise it returns no error, makes no call and leaves
the rollback counter alone.  From a state with no entry for the deployment, with
`ConsecutiveFailures = n ≥ 1` for an SLO that alone is violated at every invocation, the
first `n - 1` invocations return at the trigger check and the `n`-th does not; once the
clock is ten minutes past the zero time, the `n`-th starts the rollback steps. -/
theorem trigger_iff_counted_slo_reached (c : Controller) (env : RollbackEnv)
    (deployment : String) (violations : GoMap Bool) :
    ((performAutonomousRollback c env deployment violations).exit ≠ .noTrigger ↔
        ∃ s,
          ((∃ v, (stateOf c deployment).SLOViolations.lookup s = some v) ∨
              s ∈ violations.keys) ∧
            (c.config.SLOs.getD s {}).ConsecutiveFailures ≤
              (stateOf c deployment).SLOViolations.getD s 0 +
                (if s ∈ violations.keys then 1 else 0)) ∧
      ((performAutonomousRollback c env deployment violations).exit = .noTrigger →
        (performAutonomousRollback c env deployment violations).err = none ∧
          (performAutonomousRollback c env deployment violations).calls = [] ∧
          (performAutonomousRollback c env deployment violations).controller.rollbacksTotal =
            c.rollbacksTotal) ∧
      ∀ (s : String) (n : Nat) (envs : List RollbackEnv),
        c.deploymentStates.lookup deployment = none →
        (c.config.SLOs.getD s {}).ConsecutiveFailures = n →
        envs.length + 1 = n →
        (∀ r ∈ invokeAll c deployment ⟨[(s, true)]⟩ envs,
            r.exit = .noTrigger ∧ r.err = none ∧ r.calls = []) ∧
          (performAutonomousRollback (invokeAllController c deployment ⟨[(s, true)]⟩ envs)
            env deployment ⟨[(s, true)]⟩).exit ≠ .noTrigger ∧
          (tenMinutes ≤ env.nowCooldown →
            (performAutonomousRollback (invokeAllController c deployment ⟨[(s, true)]⟩ envs)
                env deployment ⟨[(s, true)]⟩).exit ≠ .cooldown ∧
              (performAutonomousRollback (invokeAllController c deployment ⟨[(s, true)]⟩ envs)
                env deployment ⟨[(s, true)]⟩).calls.head? = some .getVirtualService) := by
  refine ⟨?_, ?_, ?_⟩
  · rw [← trigger_condition, Ne, exit_noTrigger_iff, Bool.not_eq_false]
  · intro h
    rw [exit_noTrigger_iff] at h
    rw [perform_noTrigger c env deployment violations h]
    exact ⟨rfl, rfl, rfl⟩
  · intro s n envs hfresh hcf hlen
    have hst : stateOf c deployment =
        { Name := deployment, Namespace := "ecommerce", SLOViolations := GoMap.empty } := by
      simp [stateOf, hfresh]
    have hinv := no_trigger_below_count deployment s n envs c 0 hcf
      (by rw [hst]; rfl) (by intro key _; rw [hst]; rfl) (by rw [hst]) (by omega)
    obtain ⟨hall, hconfig, hcount, hother, hlast⟩ := hinv
    have htrig : shouldRollback
        (invokeAllController c deployment ⟨[(s, true)]⟩ envs).config
        (countedState (invokeAllController c deployment ⟨[(s, true)]⟩ envs) deployment
          ⟨[(s, true)]⟩).SLOViolations = true := by
      rw [trigger_single _ deployment s _ hcount hother, hconfig, hcf]
      push_cast
      omega
    refine ⟨hall, ?_, ?_⟩
    · rw [Ne, exit_noTrigger_iff, htrig]
      simp
    · intro hten
      have hcool : ¬ since env.nowCooldown
          (stateOf (invokeAllController c deployment ⟨[(s, true)]⟩ envs)
            deployment).LastRollback < tenMinutes := by
        rw [hlast]
        intro hlt
        unfold since at hlt
        unfold maxDuration minDuration tenMinutes Duration Time at *
        split_ifs at hlt <;> omega
      have hatt := perform_attempts _ env deployment ⟨[(s, true)]⟩ htrig hcool
      exact ⟨hatt.2.1, hatt.2.2.2⟩

theorem trigger_iff_counted_slo_reached_witness :
    (∀ r ∈ invokeAll { config := sampleConfig } "svc-a" ⟨[("success_rate", true)]⟩
          [sampleEnv plainRuleset sampleNow, sampleEnv plainRuleset sampleNow],
        r.exit = .noTrigger ∧ r.err = none ∧ r.calls = []) ∧
      (performAutonomousRollback
        (invokeAllController { config := sampleConfig } "svc-a" ⟨[("success_rate", true)]⟩
          [sampleEnv plainRuleset sampleNow, sampleEnv plainRuleset sampleNow])
        (sampleEnv plainRuleset sampleNow) "svc-a" ⟨[("success_rate", true)]⟩).exit ≠
          .noTrigger :=
  ⟨((trigger_iff_counted_slo_reached { config := sampleConfig }
      (sampleEnv plainRuleset sampleNow) "svc-a" successRateViolation).2.2 "success_rate" 3
      [sampleEnv plainRuleset sampleNow, sampleEnv plainRuleset sampleNow]
      (by decide) (by decide) (by decide)).1,
    ((trigger_iff_counted_slo_reached { config := sampleConfig }
      (sampleEnv plainRuleset sampleNow) "svc-a" successRateViolation).2.2 "success_rate" 3
      [sampleEnv plainRuleset sampleNow, sampleEnv plainRuleset sampleNow]
      (by decide) (by decide) (by decide)).2.1⟩

/-! ## Cooldown between rollbacks -/

theorem perform_cases (c : Controller) (env : RollbackEnv) (deployment : String)
    (violations : GoMap Bool) :
    ((performAutonomousRollback c env deployment violations).controller =
          withState c deployment (countedState c deployment violations) ∧
        (performAutonomousRollback c env deployment violations).exit ≠ .completed) ∨
      ((performAutonomousRollback c env deployment violations).controller =
          { withState c deployment
              (finalizedState (countedState c deployment violations) env.nowFinalize) with
            rollbacksTotal := c.rollbacksTotal + 1 } ∧
        (performAutonomousRollback c env deployment violations).exit = .completed ∧
        ¬ since env.nowCooldown (stateOf c deployment).LastRollback < tenMinutes) := by
  by_cases hs :
      shouldRollback c.config (countedState c deployment violations).SLOViolations = true
  · by_cases hcool :
        since env.nowCooldown (countedState c deployment violations).LastRollback < tenMinutes
    · rw [perform_cooldown c env deployment violations hs hcool]
      exact Or.inl ⟨rfl, by simp⟩
    · cases hr1 : rollbackTrafficRouting env.getRouting env.updateRouting with
      | mk e1 calls1 =>
        cases e1 with
        | some e1 =>
          rw [perform_trafficFailed c env deployment violations e1 calls1 hs hcool hr1]
          exact Or.inl ⟨rfl, by simp⟩
        | none =>
          cases hr2 : rollbackDeployment deployment env.getDeploy env.updateDeploy with
          | mk e2 calls2 =>
            cases e2 with
            | some e2 =>
              rw [perform_deploymentFailed c env deployment violations e2 calls1 calls2 hs
                hcool hr1 hr2]
              exact Or.inl ⟨rfl, by simp⟩
            | none =>
              rw [perform_completed c env deployment violations calls1 calls2 hs hcool hr1 hr2]
              exact Or.inr ⟨rfl, rfl, hcool⟩
  · simp only [Bool.not_eq_true] at hs
    rw [perform_noTrigger c env deployment violations hs]
    exact Or.inl ⟨rfl, by simp⟩

theorem evaluateSLOs_states (c : Controller) (q : SLOQueries) :
    (evaluateSLOs c q).1.deploymentStates = c.deploymentStates := by
  unfold evaluateSLOs
  simp only
  repeat' split
  all_goals rfl

theorem stateOf_congr {c1 c2 : Controller} (h : c1.deploymentStates = c2.deploymentStates)
    (deployment : String) : stateOf c1 deployment = stateOf c2 deployment := by
  simp [stateOf, h]

theorem put_of_find {α : Type} (k : String) (v : α) (l : List (String × α))
    (h : GoMap.find k l = some v) : GoMap.put k v l = l := by
  induction l with
  | nil => simp [GoMap.find] at h
  | cons e rest ih =>
    obtain ⟨k0, v0⟩ := e
    by_cases h0 : k0 = k
    · subst h0
      simp only [GoMap.find, if_true, Option.some.injEq] at h
      simp [GoMap.put, h]
    · simp only [GoMap.find, h0, if_false] at h
      simp [GoMap.put, h0, ih h]

theorem put_put {α : Type} (k : String) (v1 v2 : α) (l : List (String × α)) :
    GoMap.put k v2 (GoMap.put k v1 l) = GoMap.put k v2 l := by
  induction l with
  | nil => simp [GoMap.put]
  | cons e rest ih =>
    obtain ⟨k0, v0⟩ := e
    by_cases h0 : k0 = k
    · simp [GoMap.put, h0]
    · simp [GoMap.put, h0, ih]

theorem withState_of_lookup (c : Controller) (deployment : String) (st : DeploymentState)
    (h : c.deploymentStates.lookup deployment = some st) : withState c deployment st = c := by
  obtain ⟨config, rollbacks, deployments, total, ⟨entries⟩⟩ := c
  simp only [withState, GoMap.insert, Controller.mk.injEq, GoMap.mk.injEq, true_and]
  exact put_of_find _ _ _ h

theorem withState_withState (c : Controller) (deployment : String) (st1 st2 : DeploymentState) :
    withState (withState c deployment st1) deployment st2 = withState c deployment st2 := by
  simp only [withState, GoMap.insert, put_put]

theorem watch_fold_fields (during : List WatchEvent) :
    ∀ c : Controller,
      (during.foldl watchDeployments c).config = c.config ∧
        (during.foldl watchDeployments c).rollbacksTotal = c.rollbacksTotal := by
  induction during with
  | nil => intro c; exact ⟨rfl, rfl⟩
  | cons w rest ih =>
    intro c
    rw [List.foldl_cons]
    obtain ⟨h1, h2⟩ := ih (watchDeployments c w)
    rw [h1, h2]
    cases w <;> exact ⟨rfl, rfl⟩

theorem watch_fold_lookup (name : String) (during : List WatchEvent) :
    ∀ c : Controller, WatchEvent.deleted name ∉ during →
      (during.foldl watchDeployments c).deploymentStates.lookup name =
        c.deploymentStates.lookup name := by
  induction during with
  | nil => intro c _; rfl
  | cons w rest ih =>
    intro c h
    simp only [List.mem_cons, not_or] at h
    rw [List.foldl_cons, ih _ h.2]
    cases w with
    | added other => rfl
    | updated other => rfl
    | deleted other =>
      have hne : other ≠ name := fun hh => h.1 (by rw [hh])
      exact GoMap.lookup_erase_other _ hne

theorem inflight_fold (deployment : String) (during : List WatchEvent) :
    ∀ f : InFlight,
      during.foldl (watchInFlight deployment) f =
        ⟨during.foldl watchDeployments f.controller, f.state,
          f.attached && decide (WatchEvent.deleted deployment ∉ during)⟩ := by
  induction during with
  | nil => intro f; simp
  | cons w rest ih =>
    intro f
    rw [List.foldl_cons, ih]
    simp only [watchInFlight, List.foldl_cons, List.mem_cons, not_or, InFlight.mk.injEq,
      true_and]
    by_cases hw : w = WatchEvent.deleted deployment
    · simp [hw]
    · have hw1 : ¬ WatchEvent.deleted deployment = w := fun h => hw h.symm
      simp [hw, hw1]

theorem acquireState_state (c : Controller) (deployment : String) :
    (acquireState c deployment).state = stateOf c deployment ∧
      (acquireState c deployment).attached = true ∧
      (acquireState c deployment).controller.config = c.config ∧
      (acquireState c deployment).controller.rollbacksTotal = c.rollbacksTotal ∧
      (acquireState c deployment).controller.deploymentStates.lookup deployment =
        some (stateOf c deployment) ∧
      ∀ other, deployment ≠ other →
        (acquireState c deployment).controller.deploymentStates.lookup other =
          c.deploymentStates.lookup other := by
  unfold acquireState
  cases h : c.deploymentStates.lookup deployment with
  | some st =>
    refine ⟨?_, rfl, rfl, rfl, ?_, fun _ _ => rfl⟩
    · simp [stateOf, h]
    · simp [stateOf, h]
  | none =>
    exact ⟨rfl, rfl, rfl, rfl, lookup_withState_same _ _ _,
      fun other hne => lookup_withState_other _ hne _⟩

theorem performDuring_eq (c : Controller) (env : RollbackEnv) (deployment : String)
    (violations : GoMap Bool) (during : List WatchEvent) :
    performDuring c env deployment violations during =
      if WatchEvent.deleted deployment ∉ during then
        performAutonomousRollback
          (withState (during.foldl watchDeployments (acquireState c deployment).controller)
            deployment (stateOf c deployment)) env deployment violations
      else
        { performAutonomousRollback
            (withState (during.foldl watchDeployments (acquireState c deployment).controller)
              deployment (stateOf c deployment)) env deployment violations with
          controller :=
            { during.foldl watchDeployments (acquireState c deployment).controller with
              rollbacksTotal :=
                (performAutonomousRollback
                  (withState
                    (during.foldl watchDeployments (acquireState c deployment).controller)
                    deployment (stateOf c deployment)) env deployment
                  violations).controller.rollbacksTotal } } := by
  obtain ⟨hstate, hatt, _⟩ := acquireState_state c deployment
  simp only [performDuring, inflight_fold, finishRollback, hstate, hatt, Bool.true_and]
  by_cases h : WatchEvent.deleted deployment ∉ during
  · simp [h]
  · simp [h]

theorem performDuring_completed (c : Controller) (env : RollbackEnv) (deployment : String)
    (violations : GoMap Bool) (during : List WatchEvent)
    (h : (performDuring c env deployment violations during).exit = .completed) :
    ¬ since env.nowCooldown (stateOf c deployment).LastRollback < tenMinutes := by
  rw [performDuring_eq] at h
  have hexit : (performAutonomousRollback
      (withState (during.foldl watchDeployments (acquireState c deployment).controller)
        deployment (stateOf c deployment)) env deployment violations).exit = .completed := by
    by_cases hd : WatchEvent.deleted deployment ∉ during
    · rw [if_pos hd] at h
      exact h
    · rw [if_neg hd] at h
      exact h
  rcases perform_cases
    (withState (during.foldl watchDeployments (acquireState c deployment).controller)
      deployment (stateOf c deployment)) env deployment violations with hc | hc
  · exact absurd hexit hc.2
  · have := hc.2.2
    rwa [stateOf_withState] at this

theorem performDuring_lookup_other (c : Controller) (env : RollbackEnv)
    (deployment other : String) (violations : GoMap Bool) (during : List WatchEvent)
    (hne : deployment ≠ other) (hdel : WatchEvent.deleted other ∉ during) :
    (performDuring c env deployment violations during).controller.deploymentStates.lookup
        other = c.deploymentStates.lookup other := by
  have hbase : (during.foldl watchDeployments
      (acquireState c deployment).controller).deploymentStates.lookup other =
      c.deploymentStates.lookup other := by
    rw [watch_fold_lookup other during _ hdel]
    exact (acquireState_state c deployment).2.2.2.2.2 other hne
  rw [performDuring_eq]
  by_cases hd : WatchEvent.deleted deployment ∉ during
  · rw [if_pos hd]
    rcases perform_cases
      (withState (during.foldl watchDeployments (acquireState c deployment).controller)
        deployment (stateOf c deployment)) env deployment violations with hc | hc
    · rw [hc.1, lookup_withState_other _ hne, lookup_withState_other _ hne, hbase]
    · rw [hc.1]
      show (withState _ deployment _).deploymentStates.lookup other = _
      rw [lookup_withState_other _ hne, lookup_withState_other _ hne, hbase]
  · rw [if_neg hd]
    exact hbase

theorem performDuring_lookup_same (c : Controller) (env : RollbackEnv) (deployment : String)
    (violations : GoMap Bool) (during : List WatchEvent)
    (hdel : WatchEvent.deleted deployment ∉ during) :
    ∃ st,
      (performDuring c env deployment violations during).controller.deploymentStates.lookup
          deployment = some st ∧
        (((performDuring c env deployment violations during).exit ≠ .completed ∧
            st.LastRollback = (stateOf c deployment).LastRollback) ∨
          ((performDuring c env deployment violations during).exit = .completed ∧
            st.LastRollback = env.nowFinalize)) := by
  rw [performDuring_eq, if_pos hdel]
  rcases perform_cases
    (withState (during.foldl watchDeployments (acquireState c deployment).controller)
      deployment (stateOf c deployment)) env deployment violations with hc | hc
  · refine ⟨_, by rw [hc.1]; exact lookup_withState_same _ _ _, Or.inl ⟨hc.2, ?_⟩⟩
    simp only [countedState, stateOf_withState]
  · refine ⟨_, by rw [hc.1]; exact lookup_withState_same _ _ _, Or.inr ⟨hc.2.1, rfl⟩⟩

theorem performDuring_held (c : Controller) (env : RollbackEnv) (deployment : String)
    (violations : GoMap Bool) (during : List WatchEvent)
    (hcool : since env.nowCooldown (stateOf c deployment).LastRollback < tenMinutes) :
    (performDuring c env deployment violations during).calls = [] ∧
      (performDuring c env deployment violations during).err = none ∧
      (performDuring c env deployment violations during).controller.rollbacksTotal =
        c.rollbacksTotal := by
  have hcounter : (during.foldl watchDeployments
      (acquireState c deployment).controller).rollbacksTotal = c.rollbacksTotal := by
    rw [(watch_fold_fields during _).2]
    exact (acquireState_state c deployment).2.2.2.1
  have hseq : (performAutonomousRollback
        (withState (during.foldl watchDeployments (acquireState c deployment).controller)
          deployment (stateOf c deployment)) env deployment violations).calls = [] ∧
      (performAutonomousRollback
        (withState (during.foldl watchDeployments (acquireState c deployment).controller)
          deployment (stateOf c deployment)) env deployment violations).err = none ∧
      (performAutonomousRollback
        (withState (during.foldl watchDeployments (acquireState c deployment).controller)
          deployment (stateOf c deployment)) env deployment
        violations).controller.rollbacksTotal = c.rollbacksTotal := by
    have hcool1 : since env.nowCooldown
        (countedState
          (withState (during.foldl watchDeployments (acquireState c deployment).controller)
            deployment (stateOf c deployment)) deployment violations).LastRollback <
        tenMinutes := by
      simp only [countedState, stateOf_withState]
      exact hcool
    by_cases hs : shouldRollback
        (withState (during.foldl watchDeployments (acquireState c deployment).controller)
          deployment (stateOf c deployment)).config
        (countedState
          (withState (during.foldl watchDeployments (acquireState c deployment).controller)
            deployment (stateOf c deployment)) deployment violations).SLOViolations = true
    · rw [perform_cooldown _ env deployment violations hs hcool1]
      exact ⟨rfl, rfl, hcounter⟩
    · simp only [Bool.not_eq_true] at hs
      rw [perform_noTrigger _ env deployment violations hs]
      exact ⟨rfl, rfl, hcounter⟩
  rw [performDuring_eq]
  by_cases hd : WatchEvent.deleted deployment ∉ during
  · rw [if_pos hd]
    exact hseq
  · rw [if_neg hd]
    exact ⟨hseq.1, hseq.2.1, hseq.2.2⟩

theorem performDuring_nil (c : Controller) (env : RollbackEnv) (deployment : String)
    (violations : GoMap Bool) :
    performDuring c env deployment violations [] =
      performAutonomousRollback c env deployment violations := by
  rw [performDuring_eq, if_pos (by simp)]
  simp only [List.foldl_nil]
  cases h : c.deploymentStates.lookup deployment with
  | some st =>
    have hacq : (acquireState c deployment).controller = c := by simp [acquireState, h]
    have hst : stateOf c deployment = st := by simp [stateOf, h]
    rw [hacq, hst, withState_of_lookup c deployment st h]
  | none =>
    have hacq : (acquireState c deployment).controller =
        withState c deployment (stateOf c deployment) := by simp [acquireState, h]
    rw [hacq, withState_withState]
    have hstate : stateOf (withState c deployment (stateOf c deployment)) deployment =
        stateOf c deployment := stateOf_withState _ _ _
    have hcounted : countedState (withState c deployment (stateOf c deployment)) deployment
        violations = countedState c deployment violations := by
      simp only [countedState, hstate]
    simp only [performAutonomousRollback, hcounted, withState_withState]
    rfl

theorem completedRollback_evaluate (c : Controller) (name : String) (q : SLOQueries)
    (env : RollbackEnv) (during : List WatchEvent) (who : String) (t : Time)
    (h : completedRollback c (.evaluate name q env during) = some (who, t)) :
    who = name ∧ t = env.nowFinalize ∧
      ¬ since env.nowCooldown (stateOf c name).LastRollback < tenMinutes ∧
      (WatchEvent.deleted name ∉ during →
        ∃ st, (step c (.evaluate name q env during)).deploymentStates.lookup name = some st ∧
          st.LastRollback = t) := by
  simp only [completedRollback, evaluateDeploymentDuring, step] at *
  split_ifs at h with hlen
  simp only at h
  split_ifs at h with hexit
  simp only [Option.some.injEq, Prod.mk.injEq] at h
  obtain ⟨rfl, rfl⟩ := h
  refine ⟨rfl, rfl, ?_, ?_⟩
  · rw [← stateOf_congr (evaluateSLOs_states c q) name]
    exact performDuring_completed _ env name _ during hexit
  · intro hdel
    simp only [hlen, if_true]
    obtain ⟨st, hst, hlast⟩ := performDuring_lookup_same (evaluateSLOs c q).1 env name
      (evaluateSLOs c q).2 during hdel
    rcases hlast with hlast | hlast
    · exact absurd hexit hlast.1
    · exact ⟨st, hst, hlast.2⟩

theorem step_keeps_rollback_time (c : Controller) (name : String) (e : Event) (t1 t : Time)
    (hinv : ∃ st, c.deploymentStates.lookup name = some st ∧ t1 ≤ st.LastRollback)
    (hdel : deletes name e = false) (ht : t1 ≤ t) (hclock : clockMonotone t [e] = true) :
    ∃ st, (step c e).deploymentStates.lookup name = some st ∧ t1 ≤ st.LastRollback := by
  obtain ⟨st, hst, hle⟩ := hinv
  cases e with
  | watcher w =>
    simp only [deletes, decide_eq_false_iff_not] at hdel
    have hkeep := watch_fold_lookup name [w] c (by simpa using fun h => hdel h.symm)
    exact ⟨st, by simpa [step] using hkeep.trans hst, hle⟩
  | evaluate other q env during =>
    simp only [deletes, decide_eq_false_iff_not] at hdel
    have hst1 : (evaluateSLOs c q).1.deploymentStates.lookup name = some st := by
      rw [evaluateSLOs_states]
      exact hst
    simp only [clockMonotone, Bool.and_true, Bool.and_eq_true, decide_eq_true_eq] at hclock
    simp only [step, evaluateDeploymentDuring]
    split_ifs
    · simp only
      by_cases hsame : other = name
      · subst hsame
        have hso : stateOf (evaluateSLOs c q).1 other = st := by simp [stateOf, hst1]
        obtain ⟨st2, hst2, hlast⟩ := performDuring_lookup_same (evaluateSLOs c q).1 env other
          (evaluateSLOs c q).2 during hdel
        refine ⟨st2, hst2, ?_⟩
        rcases hlast with hlast | hlast
        · rw [hlast.2, hso]
          exact hle
        · rw [hlast.2]
          unfold Time at *
          omega
      · rw [performDuring_lookup_other _ env other name _ during hsame hdel]
        exact ⟨st, hst1, hle⟩
    · simp only
      rw [watch_fold_lookup name during _ hdel]
      exact ⟨st, hst1, hle⟩

theorem run_keeps_rollback_time (name : String) (t1 : Time) (last : Event) (mid : List Event) :
    ∀ (c : Controller) (t : Time),
      (∃ st, c.deploymentStates.lookup name = some st ∧ t1 ≤ st.LastRollback) →
      (∀ e ∈ mid, deletes name e = false) → t1 ≤ t →
      clockMonotone t (mid ++ [last]) = true →
      (∃ st, (run c mid).deploymentStates.lookup name = some st ∧ t1 ≤ st.LastRollback) ∧
        ∃ t2, t1 ≤ t2 ∧ clockMonotone t2 [last] = true := by
  induction mid with
  | nil =>
    intro c t hinv _ ht hclock
    exact ⟨hinv, t, ht, hclock⟩
  | cons e rest ih =>
    intro c t hinv hdel ht hclock
    have hde := hdel e (List.mem_cons_self _ _)
    have hrest : ∀ e1 ∈ rest, deletes name e1 = false :=
      fun e1 he1 => hdel e1 (List.mem_cons_of_mem _ he1)
    cases e with
    | evaluate other q env during =>
      simp only [List.cons_append, clockMonotone, Bool.and_eq_true, decide_eq_true_eq]
        at hclock
      have hstep := step_keeps_rollback_time c name (.evaluate other q env during) t1 t hinv
        hde ht (by simp [clockMonotone, hclock.1.1, hclock.1.2])
      have hfin : t1 ≤ env.nowFinalize := by
        have h1 := hclock.1.1
        have h2 := hclock.1.2
        unfold Time at *
        omega
      exact ih (step c (.evaluate other q env during)) env.nowFinalize hstep hrest hfin
        hclock.2
    | watcher w =>
      exact ih (step c (.watcher w)) t
        (step_keeps_rollback_time c name (.watcher w) t1 t hinv hde ht rfl) hrest ht hclock

/-- C2, as stated, fails, in two ways.  In a run with a non-decreasing clock, a rollback
of `svc-a` completes, the workload is deleted and created again, and a second rollback of
`svc-a` completes three periods (ninety seconds) after the first; the counter reaches 2.
In another such run the deletion is delivered while the first rollback is running, no
deletion follows its completion, and again the second rollback completes ninety seconds
after the first. -/
theorem rollback_after_delete_skips_cooldown :
    (clockMonotone 0 recreatedRun = true ∧
        completedRollbacks { config := sampleConfig } recreatedRun =
          [("svc-a", sampleNow + 2 * tick), ("svc-a", sampleNow + 5 * tick)] ∧
        (sampleNow + 5 * tick) - (sampleNow + 2 * tick) < tenMinutes ∧
        (run { config := sampleConfig } recreatedRun).rollbacksTotal = 2) ∧
      (clockMonotone 0 detachedRun = true ∧
        completedRollbacks { config := sampleConfig } detachedRun =
          [("svc-a", sampleNow + 2 * tick), ("svc-a", sampleNow + 5 * tick)] ∧
        (∀ e ∈ detachedRun.drop 3, deletes "svc-a" e = false) ∧
        (run { config := sampleConfig } detachedRun).rollbacksTotal = 2) := by
  refine ⟨⟨by decide, by decide, by decide, by decide⟩, by decide, by decide, by decide,
    by decide⟩

/-- C2, amended: in every run with a non-decreasing clock, whatever callbacks the watcher
delivers between and during the iterations of the reconciler, two completed rollbacks of
the same workload are at least ten minutes apart provided no deletion of that workload is
delivered from the moment the invocation of the first rollback has read the registry
(line 271) until the invocation of the second reads it; deletions delivered while the
second rollback runs, and callbacks on other workloads, do not matter.  An invocation of
`performAutonomousRollback` made less than ten minutes after the `LastRollback` of the
state it reads makes no call, returns no error and leaves the rollback counter unchanged,
whatever the watcher delivers meanwhile.
A deletion discards the registered state, and with it the time of the last rollback, also
when it is delivered while that rollback is still running. -/
theorem cooldown_between_rollbacks (c : Controller) (name : String) (e1 e2 : Event)
    (mid : List Event) (t0 t1 t2 : Time)
    (h1 : completedRollback c e1 = some (name, t1))
    (hduring : deletes name e1 = false)
    (hmid : ∀ e ∈ mid, deletes name e = false)
    (h2 : completedRollback (run (step c e1) mid) e2 = some (name, t2))
    (hclock : clockMonotone t0 (e1 :: (mid ++ [e2])) = true) :
    t1 + tenMinutes ≤ t2 ∧
      ∀ (c0 : Controller) (env : RollbackEnv) (deployment : String) (violations : GoMap Bool)
        (during : List WatchEvent),
        since env.nowCooldown (stateOf c0 deployment).LastRollback < tenMinutes →
        (performDuring c0 env deployment violations during).calls = [] ∧
          (performDuring c0 env deployment violations during).err = none ∧
          (performDuring c0 env deployment violations during).controller.rollbacksTotal =
            c0.rollbacksTotal ∧
          (performAutonomousRollback c0 env deployment violations).calls = [] ∧
          (performAutonomousRollback c0 env deployment violations).err = none ∧
          (performAutonomousRollback c0 env deployment violations).controller.rollbacksTotal =
            c0.rollbacksTotal := by
  constructor
  · cases e1 with
    | watcher w => simp [completedRollback] at h1
    | evaluate name1 q1 env1 during1 =>
      obtain ⟨hn1, ht1, _, hreg⟩ := completedRollback_evaluate c name1 q1 env1 during1 _ _ h1
      subst hn1
      simp only [deletes, decide_eq_false_iff_not] at hduring
      obtain ⟨st1, hst1, hlast1⟩ := hreg hduring
      simp only [clockMonotone, Bool.and_eq_true, decide_eq_true_eq] at hclock
      have hrun := run_keeps_rollback_time name t1 e2 mid
        (step c (.evaluate name q1 env1 during1)) t1
        ⟨st1, hst1, by rw [hlast1]⟩ hmid (le_refl _) (by rw [ht1]; exact hclock.2)
      obtain ⟨⟨st2, hst2, hle2⟩, t, htt, hclock2⟩ := hrun
      cases e2 with
      | watcher w => simp [completedRollback] at h2
      | evaluate name2 q2 env2 during2 =>
        obtain ⟨hn2, ht2, hcool, _⟩ := completedRollback_evaluate _ name2 q2 env2 during2 _ _ h2
        subst hn2
        have hso : stateOf (run (step c (.evaluate name q1 env1 during1)) mid) name = st2 := by
          simp [stateOf, hst2]
        rw [hso] at hcool
        have hge := since_not_lt _ _ hcool
        simp only [clockMonotone, Bool.and_true, Bool.and_eq_true, decide_eq_true_eq]
          at hclock2
        have hc2 := hclock2.2
        unfold tenMinutes Duration Time at *
        omega
  · intro c0 env deployment violations during hcool
    have hd := performDuring_held c0 env deployment violations during hcool
    have hs := performDuring_held c0 env deployment violations [] hcool
    rw [performDuring_nil] at hs
    exact ⟨hd.1, hd.2.1, hd.2.2, hs.1, hs.2.1, hs.2.2⟩

theorem cooldown_between_rollbacks_witness :
    completedRollback armedController
          (.evaluate "svc-a" lowSuccessRate (sampleEnv plainRuleset sampleNow)
            [.added "svc-c"]) =
        some ("svc-a", sampleNow) ∧
      completedRollback
          (run (step armedController
            (.evaluate "svc-a" lowSuccessRate (sampleEnv plainRuleset sampleNow)
              [.added "svc-c"])) steadyRun)
          (.evaluate "svc-a" lowSuccessRate (sampleEnv plainRuleset (sampleNow + 20 * tick))
            [.deleted "svc-a"]) =
        some ("svc-a", sampleNow + 20 * tick) ∧
      sampleNow + tenMinutes ≤ sampleNow + 20 * tick :=
  ⟨by decide, by decide,
    (cooldown_between_rollbacks armedController "svc-a"
      (.evaluate "svc-a" lowSuccessRate (sampleEnv plainRuleset sampleNow) [.added "svc-c"])
      (.evaluate "svc-a" lowSuccessRate (sampleEnv plainRuleset (sampleNow + 20 * tick))
        [.deleted "svc-a"])
      steadyRun 0 sampleNow (sampleNow + 20 * tick)
      (by decide) (by decide) (by decide) (by decide) (by decide)).1⟩

theorem evaluateDeploymentDuring_nil (c : Controller) (name : String) (q : SLOQueries)
    (env : RollbackEnv) :
    evaluateDeploymentDuring c name q env [] = evaluateDeployment c name q env := by
  simp only [evaluateDeploymentDuring, evaluateDeployment, performDuring_nil, List.foldl_nil]

theorem evaluateAllDeployments_eq_run (c : Controller)
    (items : List (String × SLOQueries × RollbackEnv)) :
    evaluateAllDeployments c (.ok items) =
      run c (items.map (fun item => Event.evaluate item.1 item.2.1 item.2.2 [])) := by
  simp only [evaluateAllDeployments, run]
  induction items generalizing c with
  | nil => rfl
  | cons item rest ih => simpa [step, evaluateDeploymentDuring_nil] using ih _

/-! ## Lemmas on `strconv.Atoi` and decimal renderings -/

theorem digitValue_digitChar (k : Nat) (h : k < 10) : digitValue (Nat.digitChar k) = some k := by
  interval_cases k <;> rfl

theorem parseDigits_toDigitsCore (fuel : Nat) :
    ∀ (n : Nat) (ds : List Char), n < fuel →
      parseDigits (Nat.toDigitsCore 10 fuel n ds) 0 = parseDigits ds n := by
  induction fuel with
  | zero => intro n ds h; omega
  | succ fuel ih =>
    intro n ds h
    unfold Nat.toDigitsCore
    simp only
    have hd := digitValue_digitChar (n % 10) (Nat.mod_lt _ (by decide))
    split_ifs with h0
    · simp only [parseDigits, hd]
      congr 1
      omega
    · rw [ih (n / 10) _ (by omega)]
      simp only [parseDigits, hd]
      congr 1
      omega

theorem toDigits_ne_nil (n : Nat) : Nat.toDigits 10 n ≠ [] := by
  intro h
  have h1 := congrArg List.length h
  unfold Nat.toDigits Nat.toDigitsCore at h1
  simp only at h1
  split_ifs at h1
  · simp at h1
  · rw [Nat.toDigitsCore_lens_eq] at h1
    simp at h1

theorem parseDigits_digits (l : List Char) :
    ∀ (acc n : Nat), parseDigits l acc = some n → ∀ ch ∈ l, digitValue ch ≠ none := by
  induction l with
  | nil => intro _ _ _ ch hch; simp at hch
  | cons c cs ih =>
    intro acc n h ch hch
    simp only [parseDigits] at h
    cases hc : digitValue c with
    | none => rw [hc] at h; simp at h
    | some d =>
      rw [hc] at h
      simp only [List.mem_cons] at hch
      rcases hch with rfl | hch
      · rw [hc]; simp
      · exact ih _ _ h ch hch

theorem Atoi_of_digits (l : List Char) (n : Nat) (hne : l ≠ []) (hp : parseDigits l 0 = some n)
    (hn : n < 2 ^ 63) : Atoi (String.mk l) = .ok (n : Int) := by
  have hdig := parseDigits_digits l 0 n hp
  unfold Atoi
  split
  · rename_i ds heq
    simp only [String.toList] at heq
    have := hdig '-' (by rw [heq]; simp)
    exact absurd (by decide) this
  · rename_i ds heq
    simp only [String.toList] at heq
    have := hdig '+' (by rw [heq]; simp)
    exact absurd (by decide) this
  · simp only [String.toList, parseMagnitude, hne, if_false, hp, hn, if_true]

theorem toList_toString (n : Nat) : (toString n).toList = Nat.toDigits 10 n := rfl

theorem Atoi_toString (n : Nat) (hn : n < 2 ^ 63) : Atoi (toString n) = .ok (n : Int) := by
  have h := Atoi_of_digits (Nat.toDigits 10 n) n (toDigits_ne_nil n)
    (by simpa [parseDigits] using parseDigits_toDigitsCore (n + 1) n [] (by omega)) hn
  exact h

theorem toString_ne_empty (n : Nat) : toString n ≠ "" := by
  intro h
  have := congrArg String.toList h
  rw [toList_toString] at this
  exact toDigits_ne_nil n this

theorem digits_of_toString (n : Nat) : ∀ ch ∈ (toString n).toList, digitValue ch ≠ none := by
  rw [toList_toString]
  exact parseDigits_digits _ 0 n
    (by simpa [parseDigits] using parseDigits_toDigitsCore (n + 1) n [] (by omega))

theorem formatInt_pred (n : Nat) (h : 1 ≤ n) : formatInt ((n : Int) - 1) = toString (n - 1) := by
  have : ((n : Int) - 1) = ((n - 1 : Nat) : Int) := by omega
  rw [this]
  rfl

/-! ## Step 2: the revision annotation -/

/-- C9: on a fetched deployment, `rollbackDeployment` fails after the `Get` call alone,
handing nothing to `Update`, when the revision annotation is missing or empty, when
`strconv.Atoi` does not read it as an integer, and when it reads an integer `R ≤ 1`; when
it reads an integer `R ≥ 2`, the deployment handed to `Update` carries the revision
annotation `R - 1` in decimal, and the function returns the error of `Update`.  Every
decimal rendering of an `R` with `2 ≤ R < 2 ^ 63` is read as `R`. -/
theorem rollbackDeployment_revision (deployment : String) (deploy : Deployment)
    (update : Option String) :
    ((deploy.Annotations.lookup revisionKey = none ∨
          deploy.Annotations.lookup revisionKey = some "" ∨
          (∃ e, Atoi (deploy.Annotations.getD revisionKey "") = .error e) ∨
          (∃ R, Atoi (deploy.Annotations.getD revisionKey "") = .ok R ∧ R ≤ 1)) →
        (rollbackDeployment deployment (.ok deploy) update).1 ≠ none ∧
          (rollbackDeployment deployment (.ok deploy) update).2 =
            [.getDeployment deployment]) ∧
      (∀ R, Atoi (deploy.Annotations.getD revisionKey "") = .ok R → 2 ≤ R →
        ∃ persisted,
          rollbackDeployment deployment (.ok deploy) update =
              (update, [.getDeployment deployment, .updateDeployment persisted]) ∧
            persisted.Annotations.lookup revisionKey = some (formatInt (R - 1))) ∧
      (∀ R : Nat, 2 ≤ R → R < 2 ^ 63 →
        deploy.Annotations.lookup revisionKey = some (toString R) →
        ∃ persisted,
          rollbackDeployment deployment (.ok deploy) update =
              (update, [.getDeployment deployment, .updateDeployment persisted]) ∧
            persisted.Annotations.lookup revisionKey = some (toString (R - 1))) := by
  have hgood : ∀ R, Atoi (deploy.Annotations.getD revisionKey "") = .ok R → 2 ≤ R →
      ∃ persisted,
        rollbackDeployment deployment (.ok deploy) update =
            (update, [.getDeployment deployment, .updateDeployment persisted]) ∧
          persisted.Annotations.lookup revisionKey = some (formatInt (R - 1)) := by
    intro R hR h2
    have hne : deploy.Annotations.getD revisionKey "" ≠ "" := by
      intro h
      have hempty : Atoi "" = .error (atoiError "" "invalid syntax") := by decide
      rw [h, hempty] at hR
      cases hR
    have hgt : ¬ R ≤ 1 := by omega
    refine ⟨{ Annotations := deploy.Annotations.insert revisionKey (formatInt (R - 1))
              Containers := deploy.Containers.map
                (fun c => { c with Image := rollbackImage c.Image }) }, ?_, ?_⟩
    · simp only [rollbackDeployment, hne, if_false, hR, hgt]
    · exact GoMap.lookup_insert_same _ _ _
  refine ⟨?_, hgood, ?_⟩
  · intro h
    by_cases hcur : deploy.Annotations.getD revisionKey "" = ""
    · simp [rollbackDeployment, hcur]
    · rcases h with h | h | ⟨e, he⟩ | ⟨R, hR, hle⟩
      · exact absurd (by simp [GoMap.getD, h]) hcur
      · exact absurd (by simp [GoMap.getD, h]) hcur
      · simp [rollbackDeployment, hcur, he]
      · simp [rollbackDeployment, hcur, hR, hle]
  · intro R h2 hlt hlook
    have hcur : deploy.Annotations.getD revisionKey "" = toString R := by
      simp [GoMap.getD, hlook]
    obtain ⟨persisted, hp, hann⟩ := hgood (R : Int) (by rw [hcur]; exact Atoi_toString R hlt)
      (by omega)
    exact ⟨persisted, hp, by rw [hann, formatInt_pred R (by omega)]⟩

theorem rollbackDeployment_revision_witness :
    ∃ persisted,
      rollbackDeployment "svc-a" (.ok sampleDeployment) none =
          (none, [.getDeployment "svc-a", .updateDeployment persisted]) ∧
        persisted.Annotations.lookup revisionKey = some (toString (3 - 1)) :=
  (rollbackDeployment_revision "svc-a" sampleDeployment none).2.2 3 (by decide) (by decide)
    (by decide)

/-! ## Lemmas on splitting -/

theorem splitFrom_of_start (sep : List Char) (c : Char) (cs : List Char)
    (h : startsWith sep (c :: cs) = true) :
    splitFrom sep 0 (c :: cs) = [] :: splitFrom sep (sep.length - 1) cs := by
  simp [splitFrom, h]

theorem splitFrom_of_not_start (sep : List Char) (c : Char) (cs p : List Char)
    (ps : List (List Char)) (h : startsWith sep (c :: cs) = false)
    (hrest : splitFrom sep 0 cs = p :: ps) :
    splitFrom sep 0 (c :: cs) = (c :: p) :: ps := by
  simp [splitFrom, h, hrest]

theorem splitFrom_of_not_contains (sep : List Char) :
    ∀ t : List Char, containsChars sep t = false → splitFrom sep 0 t = [t] := by
  intro t
  induction t with
  | nil => intro _; rfl
  | cons c cs ih =>
    intro h
    simp only [containsChars, Bool.or_eq_false_iff] at h
    exact splitFrom_of_not_start sep c cs cs [] h.1 (ih h.2)

theorem startsWith_colonV (c : Char) (cs : List Char) :
    startsWith [':', 'v'] (c :: cs) = true ↔ c = ':' ∧ ∃ ds, cs = 'v' :: ds := by
  cases cs with
  | nil => simp [startsWith]
  | cons d ds =>
    simp only [startsWith, Bool.and_true, Bool.and_eq_true, beq_iff_eq, List.cons.injEq,
      exists_and_left, exists_eq', and_true]
    constructor
    · rintro ⟨h1, h2⟩
      exact ⟨h1.symm, h2.symm⟩
    · rintro ⟨h1, h2⟩
      exact ⟨h1.symm, h2.symm⟩

theorem splitFrom_colonV_append (t : List Char) :
    ∀ p : List Char, containsChars [':', 'v'] p = false →
      splitFrom [':', 'v'] 0 (p ++ ':' :: 'v' :: t) = p :: splitFrom [':', 'v'] 0 t := by
  intro p
  induction p with
  | nil =>
    intro _
    rw [List.nil_append, splitFrom_of_start _ _ _ (by simp [startsWith])]
    rfl
  | cons c cs ih =>
    intro h
    simp only [containsChars, Bool.or_eq_false_iff] at h
    have hstart : startsWith [':', 'v'] (c :: (cs ++ ':' :: 'v' :: t)) = false := by
      rw [← Bool.not_eq_true, startsWith_colonV]
      rintro ⟨hc, ds, hds⟩
      cases cs with
      | nil =>
        simp only [List.nil_append, List.cons.injEq] at hds
        exact absurd hds.1 (by decide)
      | cons d rest =>
        simp only [List.cons_append, List.cons.injEq] at hds
        have h1 := h.1
        rw [← Bool.not_eq_true, startsWith_colonV] at h1
        exact h1 ⟨hc, rest, by rw [hds.1]⟩
    rw [List.cons_append]
    exact splitFrom_of_not_start _ c _ cs _ hstart (ih h.2)

theorem containsChars_colonV_append (t : List Char) :
    ∀ p : List Char, containsChars [':', 'v'] (p ++ ':' :: 'v' :: t) = true := by
  intro p
  induction p with
  | nil => simp [containsChars, startsWith]
  | cons c cs ih => simp [containsChars, ih]

theorem containsChars_dot (p : List Char) : containsChars ['.'] p = false ↔ '.' ∉ p := by
  induction p with
  | nil => simp [containsChars, startsWith]
  | cons c cs ih =>
    simp only [containsChars, startsWith, Bool.and_true, Bool.or_eq_false_iff, ih,
      List.mem_cons, not_or, beq_eq_false_iff_ne, ne_eq]

theorem containsChars_colonV_of_no_colon (p : List Char) (h : ':' ∉ p) :
    containsChars [':', 'v'] p = false := by
  induction p with
  | nil => simp [containsChars, startsWith]
  | cons c cs ih =>
    simp only [List.mem_cons, not_or] at h
    have hstart : startsWith [':', 'v'] (c :: cs) = false := by
      rw [← Bool.not_eq_true, startsWith_colonV]
      rintro ⟨hc, _⟩
      exact h.1 hc.symm
    simp [containsChars, hstart, ih h.2]

theorem splitFrom_dot_append (t : List Char) :
    ∀ p : List Char, '.' ∉ p →
      splitFrom ['.'] 0 (p ++ '.' :: t) = p :: splitFrom ['.'] 0 t := by
  intro p
  induction p with
  | nil =>
    intro _
    rw [List.nil_append, splitFrom_of_start _ _ _ (by simp [startsWith])]
    rfl
  | cons c cs ih =>
    intro h
    simp only [List.mem_cons, not_or] at h
    have hstart : startsWith ['.'] (c :: (cs ++ '.' :: t)) = false := by
      simpa [startsWith] using h.1
    rw [List.cons_append]
    exact splitFrom_of_not_start _ c _ cs _ hstart (ih h.2)

/-- Characters of `strings.Join(parts, ".")`. -/
theorem toList_Join_cons (a b : String) (rest : List String) :
    (Join (a :: b :: rest) ".").toList = a.toList ++ '.' :: (Join (b :: rest) ".").toList := by
  simp [Join, String.toList, String.data_append]

theorem splitFrom_Join (parts : List String) :
    ∀ first : String, (∀ comp ∈ first :: parts, '.' ∉ comp.toList) →
      (splitFrom ['.'] 0 (Join (first :: parts) ".").toList).map String.mk = first :: parts := by
  induction parts with
  | nil =>
    intro first h
    have h1 := h first (by simp)
    simp only [Join]
    rw [splitFrom_of_not_contains _ _ ((containsChars_dot _).2 h1)]
    rfl
  | cons b rest ih =>
    intro first h
    have h1 := h first (by simp)
    rw [toList_Join_cons, splitFrom_dot_append _ _ h1, List.map_cons,
      ih b (fun comp hc => h comp (List.mem_cons_of_mem _ hc))]
    rfl

theorem no_colon_Join (parts : List String) :
    ∀ first : String, (∀ comp ∈ first :: parts, ':' ∉ comp.toList) →
      ':' ∉ (Join (first :: parts) ".").toList := by
  induction parts with
  | nil =>
    intro first h
    exact h first (by simp)
  | cons b rest ih =>
    intro first h
    rw [toList_Join_cons]
    simp only [List.mem_append, List.mem_cons, not_or]
    exact ⟨h first (by simp), by decide,
      ih b (fun comp hc => h comp (List.mem_cons_of_mem _ hc))⟩

theorem toList_image (path tail : String) :
    (path ++ ":v" ++ tail).toList = path.toList ++ ':' :: 'v' :: tail.toList := by
  simp [String.toList, String.data_append]

theorem Split_image (path tail : String) (hpath : Contains path ":v" = false)
    (htail : Contains tail ":v" = false) :
    Contains (path ++ ":v" ++ tail) ":v" = true ∧
      Split (path ++ ":v" ++ tail) ":v" = [path, tail] := by
  have hsep : (":v" : String).toList = [':', 'v'] := rfl
  simp only [Contains, Split, hsep, toList_image] at *
  refine ⟨containsChars_colonV_append _ _, ?_⟩
  rw [splitFrom_colonV_append _ _ hpath, splitFrom_of_not_contains _ _ htail]
  rfl

theorem splitFrom_ne_nil (sep : List Char) :
    ∀ (t : List Char) (k : Nat), splitFrom sep k t ≠ [] := by
  intro t
  induction t with
  | nil => intro k; cases k <;> simp [splitFrom]
  | cons c cs ih =>
    intro k
    cases k with
    | succ k => simpa [splitFrom] using ih k
    | zero =>
      simp only [splitFrom]
      split_ifs
      · simp
      · split <;> simp

theorem splitFrom_colonV_length (n : Nat) :
    ∀ (a t : List Char), a.length ≤ n →
      (splitFrom [':', 'v'] 0 t).length + 1 ≤
        (splitFrom [':', 'v'] 0 (a ++ ':' :: 'v' :: t)).length := by
  induction n with
  | zero =>
    intro a t ha
    have : a = [] := List.length_eq_zero.mp (by omega)
    subst this
    rw [List.nil_append, splitFrom_of_start _ _ _ (by simp [startsWith])]
    simp [splitFrom]
  | succ n ih =>
    intro a t ha
    cases a with
    | nil =>
      rw [List.nil_append, splitFrom_of_start _ _ _ (by simp [startsWith])]
      simp [splitFrom]
    | cons c cs =>
      simp only [List.length_cons] at ha
      rw [List.cons_append]
      by_cases hstart : startsWith [':', 'v'] (c :: (cs ++ ':' :: 'v' :: t)) = true
      · rw [splitFrom_of_start _ _ _ hstart]
        obtain ⟨_, ds, hds⟩ := (startsWith_colonV _ _).1 hstart
        cases cs with
        | nil =>
          simp only [List.nil_append, List.cons.injEq] at hds
          exact absurd hds.1 (by decide)
        | cons d rest =>
          simp only [List.length_cons] at ha
          have hrec := ih rest t (by omega)
          have hskip : splitFrom [':', 'v'] ([':', 'v'].length - 1)
              (d :: rest ++ ':' :: 'v' :: t) =
              splitFrom [':', 'v'] 0 (rest ++ ':' :: 'v' :: t) := rfl
          rw [hskip, List.length_cons]
          omega
      · simp only [Bool.not_eq_true] at hstart
        have hrec := ih cs t (by omega)
        cases hsplit : splitFrom [':', 'v'] 0 (cs ++ ':' :: 'v' :: t) with
        | nil => exact absurd hsplit (splitFrom_ne_nil _ _ _)
        | cons p ps =>
          rw [splitFrom_of_not_start _ c _ p ps hstart hsplit]
          rw [hsplit] at hrec
          simpa using hrec

/-! ## Step 2: the image tag -/

theorem rollbackImage_of_parts (path version major minorPart : String) (rest : List String)
    (image : String) (hc : Contains image ":v" = true)
    (hs : Split image ":v" = [path, version])
    (hv : Split version "." = major :: minorPart :: rest) :
    rollbackImage image =
      match Atoi minorPart with
      | .ok minor =>
        if minor > 0 then path ++ ":v" ++ Join (major :: formatInt (minor - 1) :: rest) "."
        else image
      | .error _ => image := by
  cases h : Atoi minorPart <;> simp only [rollbackImage, hc, if_true, hs, hv, h]

theorem rollbackImage_components (path major minorPart : String) (rest : List String)
    (hpath : Contains path ":v" = false)
    (hcomps : ∀ comp ∈ major :: minorPart :: rest, '.' ∉ comp.toList ∧ ':' ∉ comp.toList) :
    rollbackImage (path ++ ":v" ++ Join (major :: minorPart :: rest) ".") =
      match Atoi minorPart with
      | .ok minor =>
        if minor > 0 then path ++ ":v" ++ Join (major :: formatInt (minor - 1) :: rest) "."
        else path ++ ":v" ++ Join (major :: minorPart :: rest) "."
      | .error _ => path ++ ":v" ++ Join (major :: minorPart :: rest) "." := by
  have htail : Contains (Join (major :: minorPart :: rest) ".") ":v" = false :=
    containsChars_colonV_of_no_colon _
      (no_colon_Join _ _ (fun comp hc => (hcomps comp hc).2))
  obtain ⟨hc, hs⟩ := Split_image path _ hpath htail
  have hv : Split (Join (major :: minorPart :: rest) ".") "." = major :: minorPart :: rest :=
    splitFrom_Join _ _ (fun comp hc => (hcomps comp hc).1)
  exact rollbackImage_of_parts path _ major minorPart rest _ hc hs hv

theorem no_dot_colon_toString (n : Nat) :
    '.' ∉ (toString n).toList ∧ ':' ∉ (toString n).toList := by
  have h := digits_of_toString n
  exact ⟨fun hm => h _ hm (by decide), fun hm => h _ hm (by decide)⟩

/-- C10, as stated, fails: a tag with four components, and a tag whose third component is
not a number, are not of the form `path:vMAJOR.MINOR[.PATCH]`, yet the rewrite changes
them. -/
theorem other_tags_are_rewritten :
    rollbackImage "repo/app:v1.2.3.4" = "repo/app:v1.1.3.4" ∧
      rollbackImage "repo/app:v1.2.3-rc1" = "repo/app:v1.1.3-rc1" := by
  constructor <;> decide

/-- C10, amended: for an image `path:vTAIL` with no `:v` in `path`, whose `TAIL` is two or
more components joined by dots (components free of `.` and `:`, numeric or not), the
rewrite replaces the second component by the decimal rendering of `MINOR - 1` when
`strconv.Atoi` reads it as an integer `MINOR > 0`, keeping the path and every other
component, and leaves the image unchanged when `Atoi` reads `MINOR ≤ 0` or rejects the
component; so `path:vMAJOR.MINOR` and `path:vMAJOR.MINOR.PATCH` with decimal components
and `MINOR < 2 ^ 63` become `path:vMAJOR.(MINOR-1)[.PATCH]` when `MINOR > 0` and are
unchanged when `MINOR = 0`.  An image without `:v`, with two or more `:v`, or with a
single component after `:v` is unchanged. -/
theorem rollbackImage_rewrites_second_component (path : String)
    (hpath : Contains path ":v" = false) :
    (∀ (major minorPart : String) (rest : List String) (minor : Int),
        (∀ comp ∈ major :: minorPart :: rest, '.' ∉ comp.toList ∧ ':' ∉ comp.toList) →
        Atoi minorPart = .ok minor →
        rollbackImage (path ++ ":v" ++ Join (major :: minorPart :: rest) ".") =
          if minor > 0 then path ++ ":v" ++ Join (major :: formatInt (minor - 1) :: rest) "."
          else path ++ ":v" ++ Join (major :: minorPart :: rest) ".") ∧
      (∀ (major minorPart : String) (rest : List String) (e : String),
        (∀ comp ∈ major :: minorPart :: rest, '.' ∉ comp.toList ∧ ':' ∉ comp.toList) →
        Atoi minorPart = .error e →
        rollbackImage (path ++ ":v" ++ Join (major :: minorPart :: rest) ".") =
          path ++ ":v" ++ Join (major :: minorPart :: rest) ".") ∧
      (∀ major minor : Nat, minor < 2 ^ 63 →
        rollbackImage (path ++ ":v" ++ (toString major ++ "." ++ toString minor)) =
          path ++ ":v" ++ (toString major ++ "." ++ toString (minor - 1))) ∧
      (∀ major minor patch : Nat, minor < 2 ^ 63 →
        rollbackImage
            (path ++ ":v" ++ (toString major ++ "." ++ (toString minor ++ "." ++ toString patch))) =
          path ++ ":v" ++
            (toString major ++ "." ++ (toString (minor - 1) ++ "." ++ toString patch))) ∧
      (∀ image : String, Contains image ":v" = false → rollbackImage image = image) ∧
      (∀ a b c : String,
        rollbackImage (a ++ ":v" ++ b ++ ":v" ++ c) = a ++ ":v" ++ b ++ ":v" ++ c) ∧
      (∀ tail : String, '.' ∉ tail.toList → Contains tail ":v" = false →
        rollbackImage (path ++ ":v" ++ tail) = path ++ ":v" ++ tail) := by
  have hdec : ∀ (major minor : Nat) (rest : List String), minor < 2 ^ 63 →
      (∀ comp ∈ rest, '.' ∉ comp.toList ∧ ':' ∉ comp.toList) →
      rollbackImage (path ++ ":v" ++ Join (toString major :: toString minor :: rest) ".") =
        path ++ ":v" ++ Join (toString major :: toString (minor - 1) :: rest) "." := by
    intro major minor rest hlt hrest
    have hcomps : ∀ comp ∈ toString major :: toString minor :: rest,
        '.' ∉ comp.toList ∧ ':' ∉ comp.toList := by
      intro comp hc
      simp only [List.mem_cons] at hc
      rcases hc with rfl | rfl | hc
      · exact no_dot_colon_toString major
      · exact no_dot_colon_toString minor
      · exact hrest comp hc
    rw [rollbackImage_components path _ _ rest hpath hcomps, Atoi_toString minor hlt]
    simp only
    by_cases hpos : 0 < minor
    · have : (minor : Int) > 0 := by omega
      rw [if_pos this, formatInt_pred minor (by omega)]
    · have : ¬ (minor : Int) > 0 := by omega
      have hz : minor = 0 := by omega
      rw [if_neg this, hz]
  refine ⟨?_, ?_, ?_, ?_, ?_, ?_, ?_⟩
  · intro major minorPart rest minor hcomps hminor
    rw [rollbackImage_components path major minorPart rest hpath hcomps, hminor]
  · intro major minorPart rest e hcomps hminor
    rw [rollbackImage_components path major minorPart rest hpath hcomps, hminor]
  · intro major minor hlt
    exact hdec major minor [] hlt (by simp)
  · intro major minor patch hlt
    exact hdec major minor [toString patch] hlt
      (by simpa using no_dot_colon_toString patch)
  · intro image hc
    simp [rollbackImage, hc]
  · intro a b c
    have hlen : 3 ≤ (Split (a ++ ":v" ++ b ++ ":v" ++ c) ":v").length := by
      have hl : (a ++ ":v" ++ b ++ ":v" ++ c).toList =
          a.toList ++ ':' :: 'v' :: (b.toList ++ ':' :: 'v' :: c.toList) := by
        simp [String.toList, String.data_append]
      have hsep : (":v" : String).toList = [':', 'v'] := rfl
      simp only [Split, hsep, hl, List.length_map]
      have h1 := splitFrom_colonV_length a.toList.length a.toList
        (b.toList ++ ':' :: 'v' :: c.toList) (le_refl _)
      have h2 := splitFrom_colonV_length b.toList.length b.toList c.toList (le_refl _)
      have h3 : 1 ≤ (splitFrom [':', 'v'] 0 c.toList).length := by
        cases hsp : splitFrom [':', 'v'] 0 c.toList with
        | nil => exact absurd hsp (splitFrom_ne_nil _ _ _)
        | cons p ps => simp
      omega
    unfold rollbackImage
    split_ifs
    · split
      · rename_i heq
        rw [heq] at hlen
        simp at hlen
      · rfl
    · rfl
  · intro tail hdot htail
    obtain ⟨hc, hs⟩ := Split_image path tail hpath htail
    have hv : Split tail "." = [tail] := by
      have hsep : (".": String).toList = ['.'] := rfl
      simp only [Split, hsep]
      rw [splitFrom_of_not_contains _ _ ((containsChars_dot _).2 hdot)]
      rfl
    simp only [rollbackImage, hc, if_true, hs, hv]

theorem rollbackImage_rewrites_second_component_witness :
    rollbackImage ("repo/app" ++ ":v" ++ Join ["1", "2", "3"] ".") =
        (if (2 : Int) > 0 then "repo/app" ++ ":v" ++ Join ["1", formatInt (2 - 1), "3"] "."
          else "repo/app" ++ ":v" ++ Join ["1", "2", "3"] ".") ∧
      rollbackImage ("repo/app" ++ ":v" ++ "latest") = "repo/app" ++ ":v" ++ "latest" :=
  ⟨(rollbackImage_rewrites_second_component "repo/app" (by decide)).1 "1" "2" ["3"] 2
      (by decide) (by decide),
    (rollbackImage_rewrites_second_component "repo/app" (by decide)).2.2.2.2.2.2 "latest"
      (by decide) (by decide)⟩

/-! ## SLO evaluation -/

theorem sloViolated_success_rate (config : Config) (q : SLOQueries) :
    (∀ e, queryPrometheus q.successRate = .error e →
        sloViolated config q "success_rate" = false) ∧
      ∀ v, queryPrometheus q.successRate = .ok v →
        sloViolated config q "success_rate" =
          F64.lt v (config.SLOs.getD "success_rate" {}).Threshold := by
  constructor <;> intro x hx <;>
    simp [sloViolated, sloNames, sloQuery, beyondThreshold, hx]

theorem sloViolated_latency (config : Config) (q : SLOQueries) :
    (∀ e, queryPrometheus q.latencyP95 = .error e →
        sloViolated config q "latency_p95" = false) ∧
      ∀ v, queryPrometheus q.latencyP95 = .ok v →
        sloViolated config q "latency_p95" =
          F64.lt (config.SLOs.getD "latency_p95" {}).Threshold v := by
  constructor <;> intro x hx <;>
    simp [sloViolated, sloNames, sloQuery, beyondThreshold, hx]

theorem sloViolated_error_rate (config : Config) (q : SLOQueries) :
    (∀ e, queryPrometheus q.errorRate = .error e →
        sloViolated config q "error_rate" = false) ∧
      ∀ v, queryPrometheus q.errorRate = .ok v →
        sloViolated config q "error_rate" =
          F64.lt (config.SLOs.getD "error_rate" {}).Threshold v := by
  constructor <;> intro x hx <;>
    simp [sloViolated, sloNames, sloQuery, beyondThreshold, hx]

theorem evaluateSLOs_eq (c : Controller) (q : SLOQueries) :
    evaluateSLOs c q =
      ({ c with sloViolationsTotal := c.sloViolationsTotal +
          ((sloViolated c.config q "success_rate").toNat +
            (sloViolated c.config q "latency_p95").toNat +
            (sloViolated c.config q "error_rate").toNat) },
        ⟨(if sloViolated c.config q "success_rate" then [("success_rate", true)] else []) ++
          (if sloViolated c.config q "latency_p95" then [("latency_p95", true)] else []) ++
          (if sloViolated c.config q "error_rate" then [("error_rate", true)] else [])⟩) := by
  obtain ⟨config, rollbacks, deployments, total, states⟩ := c
  unfold evaluateSLOs
  dsimp only
  cases h1 : queryPrometheus q.successRate with
  | error e1 =>
    rw [(sloViolated_success_rate _ q).1 e1 h1]
    cases h2 : queryPrometheus q.latencyP95 with
    | error e2 =>
      rw [(sloViolated_latency _ q).1 e2 h2]
      cases h3 : queryPrometheus q.errorRate with
      | error e3 =>
        rw [(sloViolated_error_rate _ q).1 e3 h3]
        simp [GoMap.empty]
      | ok v3 =>
        rw [(sloViolated_error_rate _ q).2 v3 h3]
        cases hb3 : F64.lt (config.SLOs.getD "error_rate" {}).Threshold v3 <;>
          simp_all [GoMap.empty, GoMap.insert, GoMap.put]
    | ok v2 =>
      rw [(sloViolated_latency _ q).2 v2 h2]
      cases h3 : queryPrometheus q.errorRate with
      | error e3 =>
        rw [(sloViolated_error_rate _ q).1 e3 h3]
        cases hb2 : F64.lt (config.SLOs.getD "latency_p95" {}).Threshold v2 <;>
          simp_all [GoMap.empty, GoMap.insert, GoMap.put]
      | ok v3 =>
        rw [(sloViolated_error_rate _ q).2 v3 h3]
        cases hb2 : F64.lt (config.SLOs.getD "latency_p95" {}).Threshold v2 <;>
          cases hb3 : F64.lt (config.SLOs.getD "error_rate" {}).Threshold v3 <;>
          simp_all [GoMap.empty, GoMap.insert, GoMap.put]
  | ok v1 =>
    rw [(sloViolated_success_rate _ q).2 v1 h1]
    cases h2 : queryPrometheus q.latencyP95 with
    | error e2 =>
      rw [(sloViolated_latency _ q).1 e2 h2]
      cases h3 : queryPrometheus q.errorRate with
      | error e3 =>
        rw [(sloViolated_error_rate _ q).1 e3 h3]
        cases hb1 : F64.lt v1 (config.SLOs.getD "success_rate" {}).Threshold <;>
          simp_all [GoMap.empty, GoMap.insert, GoMap.put]
      | ok v3 =>
        rw [(sloViolated_error_rate _ q).2 v3 h3]
        cases hb1 : F64.lt v1 (config.SLOs.getD "success_rate" {}).Threshold <;>
          cases hb3 : F64.lt (config.SLOs.getD "error_rate" {}).Threshold v3 <;>
          simp_all [GoMap.empty, GoMap.insert, GoMap.put]
    | ok v2 =>
      rw [(sloViolated_latency _ q).2 v2 h2]
      cases h3 : queryPrometheus q.errorRate with
      | error e3 =>
        rw [(sloViolated_error_rate _ q).1 e3 h3]
        cases hb1 : F64.lt v1 (config.SLOs.getD "success_rate" {}).Threshold <;>
          cases hb2 : F64.lt (config.SLOs.getD "latency_p95" {}).Threshold v2 <;>
          simp_all [GoMap.empty, GoMap.insert, GoMap.put]
      | ok v3 =>
        rw [(sloViolated_error_rate _ q).2 v3 h3]
        cases hb1 : F64.lt v1 (config.SLOs.getD "success_rate" {}).Threshold <;>
          cases hb2 : F64.lt (config.SLOs.getD "latency_p95" {}).Threshold v2 <;>
          cases hb3 : F64.lt (config.SLOs.getD "error_rate" {}).Threshold v3 <;>
          simp_all [GoMap.empty, GoMap.insert, GoMap.put]

theorem sloViolated_success_rate_iff (config : Config) (q : SLOQueries) :
    sloViolated config q "success_rate" = true ↔
      ∃ v, queryPrometheus q.successRate = .ok v ∧
        F64.lt v (config.SLOs.getD "success_rate" {}).Threshold = true := by
  cases h : queryPrometheus q.successRate with
  | error e => simp [(sloViolated_success_rate config q).1 e h]
  | ok v => simp [(sloViolated_success_rate config q).2 v h]

theorem sloViolated_latency_iff (config : Config) (q : SLOQueries) :
    sloViolated config q "latency_p95" = true ↔
      ∃ v, queryPrometheus q.latencyP95 = .ok v ∧
        F64.lt (config.SLOs.getD "latency_p95" {}).Threshold v = true := by
  cases h : queryPrometheus q.latencyP95 with
  | error e => simp [(sloViolated_latency config q).1 e h]
  | ok v => simp [(sloViolated_latency config q).2 v h]

theorem sloViolated_error_rate_iff (config : Config) (q : SLOQueries) :
    sloViolated config q "error_rate" = true ↔
      ∃ v, queryPrometheus q.errorRate = .ok v ∧
        F64.lt (config.SLOs.getD "error_rate" {}).Threshold v = true := by
  cases h : queryPrometheus q.errorRate with
  | error e => simp [(sloViolated_error_rate config q).1 e h]
  | ok v => simp [(sloViolated_error_rate config q).2 v h]

theorem evaluateSLOs_keys (c : Controller) (q : SLOQueries) :
    (evaluateSLOs c q).2.keys =
      (if sloViolated c.config q "success_rate" then ["success_rate"] else []) ++
        (if sloViolated c.config q "latency_p95" then ["latency_p95"] else []) ++
        (if sloViolated c.config q "error_rate" then ["error_rate"] else []) := by
  rw [evaluateSLOs_eq]
  dsimp only
  cases sloViolated c.config q "success_rate" <;>
    cases sloViolated c.config q "latency_p95" <;>
    cases sloViolated c.config q "error_rate" <;> decide

theorem mem_evaluateSLOs_keys (c : Controller) (q : SLOQueries) (k : String) :
    k ∈ (evaluateSLOs c q).2.keys ↔
      (k = "success_rate" ∧ sloViolated c.config q "success_rate" = true) ∨
        (k = "latency_p95" ∧ sloViolated c.config q "latency_p95" = true) ∨
        (k = "error_rate" ∧ sloViolated c.config q "error_rate" = true) := by
  rw [evaluateSLOs_keys]
  cases sloViolated c.config q "success_rate" <;>
    cases sloViolated c.config q "latency_p95" <;>
    cases sloViolated c.config q "error_rate" <;> simp

theorem evaluateSLOs_len (c : Controller) (q : SLOQueries) :
    (evaluateSLOs c q).2.len =
      (sloViolated c.config q "success_rate").toNat +
        (sloViolated c.config q "latency_p95").toNat +
        (sloViolated c.config q "error_rate").toNat := by
  rw [GoMap.len, evaluateSLOs_keys]
  cases sloViolated c.config q "success_rate" <;>
    cases sloViolated c.config q "latency_p95" <;>
    cases sloViolated c.config q "error_rate" <;> rfl

theorem evaluateSLOs_values (c : Controller) (q : SLOQueries) (k : String) (b : Bool)
    (h : (evaluateSLOs c q).2.lookup k = some b) : b = true := by
  rw [evaluateSLOs_eq] at h
  revert h
  cases sloViolated c.config q "success_rate" <;>
    cases sloViolated c.config q "latency_p95" <;>
    cases sloViolated c.config q "error_rate" <;>
    simp only [GoMap.lookup, GoMap.find, Bool.false_eq_true, if_false, if_true,
      List.append_nil, List.nil_append, List.cons_append] <;>
    intro h <;> (try split_ifs at h) <;> simp_all

/-- C11: `evaluateSLOs` returns a nil error and a violation map whose keys are exactly:
`success_rate` when its query succeeded with a value below the threshold, `latency_p95`
when its query succeeded with a value above the threshold, `error_rate` when its query
succeeded with a value above the threshold (every key bound to `true`).  Whether an SLO is
in the map depends on its own query only, so a failed query keeps its SLO out and leaves
the other two alone.  The controller it leaves is the given one with the counter of SLO
violations advanced by the number of keys of the map. -/
theorem evaluateSLOs_violation_set (c : Controller) (q : SLOQueries) :
    evaluateSLOsError c q = none ∧
      (∀ k, k ∈ (evaluateSLOs c q).2.keys ↔
        (k = "success_rate" ∧ ∃ v, queryPrometheus q.successRate = .ok v ∧
            F64.lt v (c.config.SLOs.getD "success_rate" {}).Threshold = true) ∨
          (k = "latency_p95" ∧ ∃ v, queryPrometheus q.latencyP95 = .ok v ∧
            F64.lt (c.config.SLOs.getD "latency_p95" {}).Threshold v = true) ∨
          (k = "error_rate" ∧ ∃ v, queryPrometheus q.errorRate = .ok v ∧
            F64.lt (c.config.SLOs.getD "error_rate" {}).Threshold v = true)) ∧
      (∀ k b, (evaluateSLOs c q).2.lookup k = some b → b = true) ∧
      (∀ q2 : SLOQueries,
        (q2.successRate = q.successRate →
            ("success_rate" ∈ (evaluateSLOs c q2).2.keys ↔
              "success_rate" ∈ (evaluateSLOs c q).2.keys)) ∧
          (q2.latencyP95 = q.latencyP95 →
            ("latency_p95" ∈ (evaluateSLOs c q2).2.keys ↔
              "latency_p95" ∈ (evaluateSLOs c q).2.keys)) ∧
          (q2.errorRate = q.errorRate →
            ("error_rate" ∈ (evaluateSLOs c q2).2.keys ↔
              "error_rate" ∈ (evaluateSLOs c q).2.keys))) ∧
      (evaluateSLOs c q).1.sloViolationsTotal =
        c.sloViolationsTotal + (evaluateSLOs c q).2.len ∧
      (evaluateSLOs c q).1 =
        { c with sloViolationsTotal := c.sloViolationsTotal + (evaluateSLOs c q).2.len } := by
  have hmem : ∀ (q1 : SLOQueries) (k : String), k ∈ (evaluateSLOs c q1).2.keys ↔
      (k = "success_rate" ∧ ∃ v, queryPrometheus q1.successRate = .ok v ∧
          F64.lt v (c.config.SLOs.getD "success_rate" {}).Threshold = true) ∨
        (k = "latency_p95" ∧ ∃ v, queryPrometheus q1.latencyP95 = .ok v ∧
          F64.lt (c.config.SLOs.getD "latency_p95" {}).Threshold v = true) ∨
        (k = "error_rate" ∧ ∃ v, queryPrometheus q1.errorRate = .ok v ∧
          F64.lt (c.config.SLOs.getD "error_rate" {}).Threshold v = true) := by
    intro q1 k
    rw [mem_evaluateSLOs_keys, sloViolated_success_rate_iff, sloViolated_latency_iff,
      sloViolated_error_rate_iff]
  have hcontroller : (evaluateSLOs c q).1 =
      { c with sloViolationsTotal := c.sloViolationsTotal + (evaluateSLOs c q).2.len } := by
    rw [evaluateSLOs_len]
    rw [evaluateSLOs_eq]
  refine ⟨rfl, hmem q, evaluateSLOs_values c q, ?_, ?_, hcontroller⟩
  · intro q2
    refine ⟨?_, ?_, ?_⟩ <;> intro hq <;> rw [hmem q2, hmem q, hq] <;> simp
  · rw [hcontroller]

theorem evaluateSLOs_violation_set_witness :
    "latency_p95" ∈ (evaluateSLOs { config := latencyConfig } twoViolations).2.keys ∧
      (evaluateSLOs { config := latencyConfig } twoViolations).1.sloViolationsTotal =
        0 + (evaluateSLOs { config := latencyConfig } twoViolations).2.len :=
  ⟨((evaluateSLOs_violation_set { config := latencyConfig } twoViolations).2.1
      "latency_p95").2 (Or.inr (Or.inl ⟨rfl, .finite 250 0, by decide, by decide⟩)),
    (evaluateSLOs_violation_set { config := latencyConfig } twoViolations).2.2.2.2.1⟩

/-! ## Counts between rollbacks -/

/-- C12: an invocation of `performAutonomousRollback` that does not complete a rollback
(it returns at the trigger check, at the cooldown check, or on a failed step 1 or 2)
leaves, for every SLO of the violation set, a count one above the previous count (0 when
there was no entry), and every other entry as it was, so that no count goes down; an
invocation that completes a rollback leaves every entry at 0. -/
theorem counts_advance_until_rollback (c : Controller) (env : RollbackEnv)
    (deployment : String) (violations : GoMap Bool) :
    ((performAutonomousRollback c env deployment violations).exit ≠ .completed ↔
        (performAutonomousRollback c env deployment violations).exit = .noTrigger ∨
          (performAutonomousRollback c env deployment violations).exit = .cooldown ∨
          (performAutonomousRollback c env deployment violations).exit = .trafficFailed ∨
          (performAutonomousRollback c env deployment violations).exit = .deploymentFailed) ∧
      ∃ st,
        (performAutonomousRollback c env deployment violations).controller.deploymentStates.lookup
            deployment = some st ∧
          ((performAutonomousRollback c env deployment violations).exit ≠ .completed →
            (∀ s, s ∈ violations.keys →
                st.SLOViolations.lookup s =
                  some ((stateOf c deployment).SLOViolations.getD s 0 + 1)) ∧
              (∀ s, s ∉ violations.keys →
                st.SLOViolations.lookup s = (stateOf c deployment).SLOViolations.lookup s) ∧
              ∀ s, (stateOf c deployment).SLOViolations.getD s 0 ≤
                st.SLOViolations.getD s 0) ∧
          ((performAutonomousRollback c env deployment violations).exit = .completed →
            ∀ s v, st.SLOViolations.lookup s = some v → v = 0) := by
  constructor
  · cases (performAutonomousRollback c env deployment violations).exit <;> simp
  · rcases perform_cases c env deployment violations with hc | hc
    · refine ⟨countedState c deployment violations, ?_, ?_, fun h => absurd h hc.2⟩
      · rw [hc.1]
        exact lookup_withState_same _ _ _
      · intro _
        have hlook : ∀ s, (countedState c deployment violations).SLOViolations.lookup s =
            if s ∈ violations.keys then some ((stateOf c deployment).SLOViolations.getD s 0 + 1)
            else (stateOf c deployment).SLOViolations.lookup s := by
          intro s
          simp only [countedState, lookup_incrementViolations]
        refine ⟨fun s hs => by rw [hlook, if_pos hs], fun s hs => by rw [hlook, if_neg hs], ?_⟩
        intro s
        by_cases hs : s ∈ violations.keys
        · simp only [GoMap.getD, hlook, if_pos hs, Option.getD_some]
          omega
        · simp only [GoMap.getD, hlook, if_neg hs]
          exact le_refl _
    · refine ⟨finalizedState (countedState c deployment violations) env.nowFinalize, ?_,
        fun h => absurd hc.2.1 h, ?_⟩
      · rw [hc.1]
        exact lookup_withState_same _ _ _
      · intro _ s v hv
        simp only [finalizedState, GoMap.lookup_setAll, Option.map_eq_some'] at hv
        obtain ⟨_, _, rfl⟩ := hv
        rfl

theorem counts_advance_until_rollback_witness :
    ∃ st,
      (performAutonomousRollback armedController
          { sampleEnv plainRuleset sampleNow with getDeploy := .error "not found" } "svc-a"
          successRateViolation).controller.deploymentStates.lookup "svc-a" = some st ∧
        st.SLOViolations.lookup "success_rate" = some (2 + 1) := by
  obtain ⟨st, hst, hcount, _⟩ := (counts_advance_until_rollback armedController
    { sampleEnv plainRuleset sampleNow with getDeploy := .error "not found" } "svc-a"
    successRateViolation).2
  exact ⟨st, hst, (hcount (by decide)).1 "success_rate" (by decide)⟩

/-! ## Ticks with a query that fails -/

theorem evaluateSLOs_quiet (c : Controller) (q : SLOQueries)
    (h : ∀ key, sloViolated c.config q key = false) : evaluateSLOs c q = (c, ⟨[]⟩) := by
  rw [evaluateSLOs_eq, h, h, h]
  obtain ⟨config, rollbacks, deployments, total, states⟩ := c
  simp

theorem evaluateSLOs_single (c : Controller) (q : SLOQueries) (s : String)
    (hs : sloViolated c.config q s = true)
    (ho : ∀ key, key ≠ s → sloViolated c.config q key = false) :
    evaluateSLOs c q =
      ({ c with sloViolationsTotal := c.sloViolationsTotal + 1 }, ⟨[(s, true)]⟩) := by
  have hmem : s ∈ sloNames := by
    simp only [sloViolated, Bool.and_eq_true, decide_eq_true_eq] at hs
    exact hs.1
  simp only [sloNames, List.mem_cons, List.mem_singleton, List.not_mem_nil, or_false] at hmem
  rcases hmem with rfl | rfl | rfl
  · rw [evaluateSLOs_eq, hs, ho "latency_p95" (by decide), ho "error_rate" (by decide)]
    rfl
  · rw [evaluateSLOs_eq, hs, ho "success_rate" (by decide), ho "error_rate" (by decide)]
    rfl
  · rw [evaluateSLOs_eq, hs, ho "success_rate" (by decide), ho "latency_p95" (by decide)]
    rfl

theorem evaluateDeployment_quiet (c : Controller) (name : String) (q : SLOQueries)
    (env : RollbackEnv) (h : ∀ key, sloViolated c.config q key = false) :
    evaluateDeployment c name q env = (c, none) := by
  simp [evaluateDeployment, evaluateSLOs_quiet c q h, GoMap.len, GoMap.keys,
    GoMap.distinctKeys]

theorem evaluateDeployment_single (c : Controller) (name : String) (q : SLOQueries)
    (env : RollbackEnv) (s : String) (hs : sloViolated c.config q s = true)
    (ho : ∀ key, key ≠ s → sloViolated c.config q key = false) :
    evaluateDeployment c name q env =
      ((performAutonomousRollback { c with sloViolationsTotal := c.sloViolationsTotal + 1 }
          env name ⟨[(s, true)]⟩).controller,
        some (performAutonomousRollback
          { c with sloViolationsTotal := c.sloViolationsTotal + 1 } env name ⟨[(s, true)]⟩)) := by
  simp [evaluateDeployment, evaluateSLOs_single c q s hs ho, GoMap.len, keys_single]

theorem sloViolated_of_error (config : Config) (q : SLOQueries) (s e : String)
    (h : queryPrometheus (sloQuery q s) = .error e) : sloViolated config q s = false := by
  simp [sloViolated, h]

theorem ticks_below_count (name s : String) (n : Nat) (config : Config)
    (ticks : List (SLOQueries × RollbackEnv)) :
    ∀ (c : Controller) (k : Nat),
      c.config = config →
      (config.SLOs.getD s {}).ConsecutiveFailures = n →
      (stateOf c name).SLOViolations.getD s 0 = k →
      (∀ key, key ≠ s → (stateOf c name).SLOViolations.lookup key = none) →
      (stateOf c name).LastRollback = 0 →
      (∀ t ∈ ticks, ∀ key, key ≠ s → sloViolated config t.1 key = false) →
      k + (ticks.filter (fun t => sloViolated config t.1 s)).length < n →
      (∀ r ∈ tickResults c name ticks,
          r.2 = none ∨
            ∃ rr, r.2 = some rr ∧ rr.exit = .noTrigger ∧ rr.err = none ∧ rr.calls = []) ∧
        (tickController c name ticks).config = config ∧
        (tickController c name ticks).rollbacksTotal = c.rollbacksTotal ∧
        (stateOf (tickController c name ticks) name).SLOViolations.getD s 0 =
          ((k + (ticks.filter (fun t => sloViolated config t.1 s)).length : Nat) : Int) ∧
        (∀ key, key ≠ s →
          (stateOf (tickController c name ticks) name).SLOViolations.lookup key = none) ∧
        (stateOf (tickController c name ticks) name).LastRollback = 0 := by
  induction ticks with
  | nil =>
    intro c k hconfig _ hk hother hlast _ _
    exact ⟨by simp [tickResults], hconfig, rfl, by simpa [tickController] using hk,
      by simpa [tickController] using hother, by simpa [tickController] using hlast⟩
  | cons t rest ih =>
    intro c k hconfig hcf hk hother hlast hticks hlen
    have hrest : ∀ t1 ∈ rest, ∀ key, key ≠ s → sloViolated config t1.1 key = false :=
      fun t1 ht1 => hticks t1 (List.mem_cons_of_mem _ ht1)
    have ht := hticks t (List.mem_cons_self _ _)
    by_cases hv : sloViolated config t.1 s = true
    · simp only [List.filter_cons, hv, if_true, List.length_cons] at hlen ⊢
      have hdep := evaluateDeployment_single c name t.1 t.2 s (by rw [hconfig]; exact hv)
        (by rw [hconfig]; exact ht)
      have hstate : stateOf { c with sloViolationsTotal := c.sloViolationsTotal + 1 } name =
          stateOf c name := stateOf_congr rfl name
      have hk1 : (stateOf { c with sloViolationsTotal := c.sloViolationsTotal + 1 }
          name).SLOViolations.getD s 0 = k := by rw [hstate]; exact hk
      have hother1 : ∀ key, key ≠ s →
          (stateOf { c with sloViolationsTotal := c.sloViolationsTotal + 1 }
            name).SLOViolations.lookup key = none := by rw [hstate]; exact hother
      have hnot : shouldRollback
          ({ c with sloViolationsTotal := c.sloViolationsTotal + 1 } : Controller).config
          (countedState { c with sloViolationsTotal := c.sloViolationsTotal + 1 } name
            ⟨[(s, true)]⟩).SLOViolations = false := by
        rw [← Bool.not_eq_true, trigger_single _ name s k hk1 hother1]
        show ¬ (c.config.SLOs.getD s {}).ConsecutiveFailures ≤ (k : Int) + 1
        rw [hconfig, hcf]
        omega
      have hperf := perform_noTrigger { c with sloViolationsTotal := c.sloViolationsTotal + 1 }
        t.2 name ⟨[(s, true)]⟩ hnot
      obtain ⟨hs1, ho1⟩ := counted_single _ name s k hk1 hother1
      have hst := stateOf_withState { c with sloViolationsTotal := c.sloViolationsTotal + 1 }
        name (countedState { c with sloViolationsTotal := c.sloViolationsTotal + 1 } name
          ⟨[(s, true)]⟩)
      have hih := ih
        (withState { c with sloViolationsTotal := c.sloViolationsTotal + 1 } name
          (countedState { c with sloViolationsTotal := c.sloViolationsTotal + 1 } name
            ⟨[(s, true)]⟩))
        (k + 1) hconfig hcf (by rw [hst]; simp [GoMap.getD, hs1]) (by rw [hst]; exact ho1)
        (by rw [hst]; show (stateOf _ name).LastRollback = 0; rw [hstate]; exact hlast)
        hrest (by omega)
      simp only [tickResults, tickController, hdep, hperf, List.mem_cons, forall_eq_or_imp]
      refine ⟨⟨Or.inr ⟨_, rfl, rfl, rfl, rfl⟩, hih.1⟩, hih.2.1, hih.2.2.1, ?_, hih.2.2.2.2.1,
        hih.2.2.2.2.2⟩
      rw [hih.2.2.2.1]
      push_cast
      omega
    · simp only [Bool.not_eq_true] at hv
      have hall : ∀ key, sloViolated c.config t.1 key = false := by
        intro key
        rw [hconfig]
        by_cases hkey : key = s
        · rw [hkey]; exact hv
        · exact ht key hkey
      have hdep := evaluateDeployment_quiet c name t.1 t.2 hall
      simp only [List.filter_cons, hv, Bool.false_eq_true, if_false] at hlen ⊢
      have hih := ih c k hconfig hcf hk hother hlast hrest hlen
      simp only [tickResults, tickController, hdep, List.mem_cons, forall_eq_or_imp]
      exact ⟨⟨Or.inl trivial, hih.1⟩, hih.2⟩

/-- C13: take a deployment with no registered state, an SLO `s` with
`ConsecutiveFailures = n ≥ 1`, and ticks on each of which `s` is either violated or its
query fails, no other SLO being violated.  A tick on which the query of `s` fails leaves
the controller as it was and invokes no rollback.  As long as fewer than `n` ticks
violated `s`, no tick executes a rollback step and the rollback counter stays; the tick
on which `s` is violated for the `n`-th time passes the trigger check, starts the
rollback steps once the clock is ten minutes past the zero time, and completes the
rollback when steps 1 and 2 succeed. -/
theorem rollback_fires_at_nth_violation (c : Controller) (name s : String) (n : Nat)
    (ticks : List (SLOQueries × RollbackEnv)) (q : SLOQueries) (env : RollbackEnv)
    (hfresh : c.deploymentStates.lookup name = none)
    (hcf : (c.config.SLOs.getD s {}).ConsecutiveFailures = n)
    (hticks : ∀ t ∈ ticks,
      (sloViolated c.config t.1 s = true ∨ ∃ e, queryPrometheus (sloQuery t.1 s) = .error e) ∧
        ∀ key ∈ sloNames, key ≠ s → sloViolated c.config t.1 key = false)
    (hcount : (ticks.filter (fun t => sloViolated c.config t.1 s)).length + 1 = n)
    (hq : sloViolated c.config q s = true ∧
      ∀ key ∈ sloNames, key ≠ s → sloViolated c.config q key = false) :
    (∀ (c0 : Controller) (q0 : SLOQueries) (env0 : RollbackEnv),
        c0.config = c.config →
        (∃ e, queryPrometheus (sloQuery q0 s) = .error e) →
        (∀ key ∈ sloNames, key ≠ s → sloViolated c.config q0 key = false) →
        evaluateDeployment c0 name q0 env0 = (c0, none)) ∧
      (∀ r ∈ tickResults c name ticks,
        r.2 = none ∨
          ∃ rr, r.2 = some rr ∧ rr.exit = .noTrigger ∧ rr.err = none ∧ rr.calls = []) ∧
      (tickController c name ticks).rollbacksTotal = c.rollbacksTotal ∧
      ∃ rr,
        (evaluateDeployment (tickController c name ticks) name q env).2 = some rr ∧
          rr.exit ≠ .noTrigger ∧
          (tenMinutes ≤ env.nowCooldown →
            rr.exit ≠ .cooldown ∧ rr.calls.head? = some .getVirtualService) ∧
          (tenMinutes ≤ env.nowCooldown →
            (rollbackTrafficRouting env.getRouting env.updateRouting).1 = none →
            (rollbackDeployment name env.getDeploy env.updateDeploy).1 = none →
            rr.exit = .completed ∧ rr.controller.rollbacksTotal = c.rollbacksTotal + 1) := by
  have hst : stateOf c name =
      { Name := name, Namespace := "ecommerce", SLOViolations := GoMap.empty } := by
    simp [stateOf, hfresh]
  have hall_keys : ∀ q1 : SLOQueries,
      (∀ key ∈ sloNames, key ≠ s → sloViolated c.config q1 key = false) →
      ∀ key, key ≠ s → sloViolated c.config q1 key = false := by
    intro q1 h key hkey
    by_cases hmem : key ∈ sloNames
    · exact h key hmem hkey
    · simp [sloViolated, hmem]
  have hk0 : (stateOf c name).SLOViolations.getD s 0 = ((0 : Nat) : Int) := by
    rw [hst]
    rfl
  have hother0 : ∀ key, key ≠ s → (stateOf c name).SLOViolations.lookup key = none := by
    intro key _
    rw [hst]
    rfl
  have hlast0 : (stateOf c name).LastRollback = 0 := by
    rw [hst]
  have hinv := ticks_below_count name s n c.config ticks c 0 rfl hcf hk0 hother0 hlast0
    (fun t ht => hall_keys t.1 (hticks t ht).2) (by omega)
  obtain ⟨hall, hconfig, hcounter, hcnt, hother, hlast⟩ := hinv
  refine ⟨?_, hall, hcounter, ?_⟩
  · intro c0 q0 env0 hc0 ⟨e, he⟩ hquiet
    apply evaluateDeployment_quiet
    intro key
    rw [hc0]
    by_cases hkey : key = s
    · rw [hkey]
      exact sloViolated_of_error _ _ _ e he
    · exact hall_keys q0 hquiet key hkey
  · have hdep := evaluateDeployment_single (tickController c name ticks) name q env s
      (by rw [hconfig]; exact hq.1) (by rw [hconfig]; exact hall_keys q hq.2)
    rw [hdep]
    refine ⟨_, rfl, ?_⟩
    have hstate : stateOf { tickController c name ticks with
        sloViolationsTotal := (tickController c name ticks).sloViolationsTotal + 1 } name =
        stateOf (tickController c name ticks) name := stateOf_congr rfl name
    have htrig : shouldRollback
        ({ tickController c name ticks with
          sloViolationsTotal :=
            (tickController c name ticks).sloViolationsTotal + 1 } : Controller).config
        (countedState { tickController c name ticks with
          sloViolationsTotal := (tickController c name ticks).sloViolationsTotal + 1 } name
          ⟨[(s, true)]⟩).SLOViolations = true := by
      have hcnt1 : (stateOf { tickController c name ticks with
          sloViolationsTotal := (tickController c name ticks).sloViolationsTotal + 1 }
          name).SLOViolations.getD s 0 =
          ((0 + (ticks.filter (fun t => sloViolated c.config t.1 s)).length : Nat) : Int) := by
        rw [hstate]
        exact hcnt
      have hother1 : ∀ key, key ≠ s →
          (stateOf { tickController c name ticks with
            sloViolationsTotal := (tickController c name ticks).sloViolationsTotal + 1 }
            name).SLOViolations.lookup key = none := by
        rw [hstate]
        exact hother
      rw [trigger_single _ name s _ hcnt1 hother1]
      show ((tickController c name ticks).config.SLOs.getD s {}).ConsecutiveFailures ≤ _
      rw [hconfig, hcf]
      push_cast
      omega
    have hcool : tenMinutes ≤ env.nowCooldown →
        ¬ since env.nowCooldown
          (stateOf { tickController c name ticks with
            sloViolationsTotal := (tickController c name ticks).sloViolationsTotal + 1 }
            name).LastRollback < tenMinutes := by
      intro hten
      rw [hstate, hlast]
      intro hlt
      unfold since at hlt
      unfold maxDuration minDuration tenMinutes Duration Time at *
      split_ifs at hlt <;> omega
    refine ⟨?_, ?_, ?_⟩
    · rw [Ne, exit_noTrigger_iff, htrig]
      simp
    · intro hten
      have hatt := perform_attempts _ env name ⟨[(s, true)]⟩ htrig (hcool hten)
      exact ⟨hatt.2.1, hatt.2.2.2⟩
    · intro hten h1 h2
      have hr1 : rollbackTrafficRouting env.getRouting env.updateRouting =
          (none, (rollbackTrafficRouting env.getRouting env.updateRouting).2) := by
        rw [← h1]
      have hr2 : rollbackDeployment name env.getDeploy env.updateDeploy =
          (none, (rollbackDeployment name env.getDeploy env.updateDeploy).2) := by
        rw [← h2]
      rw [perform_completed _ env name ⟨[(s, true)]⟩ _ _ htrig (hcool hten) hr1 hr2]
      refine ⟨rfl, ?_⟩
      show (tickController c name ticks).rollbacksTotal + 1 = c.rollbacksTotal + 1
      rw [hcounter]

theorem rollback_fires_at_nth_violation_witness :
    (∀ r ∈ tickResults { config := latencyConfig } "svc-a"
          [(highLatency, sampleEnv plainRuleset sampleNow),
            (latencyUnavailable, sampleEnv plainRuleset (sampleNow + tick))],
        r.2 = none ∨
          ∃ rr, r.2 = some rr ∧ rr.exit = .noTrigger ∧ rr.err = none ∧ rr.calls = []) ∧
      ∃ rr,
        (evaluateDeployment
            (tickController { config := latencyConfig } "svc-a"
              [(highLatency, sampleEnv plainRuleset sampleNow),
                (latencyUnavailable, sampleEnv plainRuleset (sampleNow + tick))])
            "svc-a" highLatency (sampleEnv plainRuleset (sampleNow + 2 * tick))).2 = some rr ∧
          rr.exit = .completed := by
  have h := rollback_fires_at_nth_violation { config := latencyConfig } "svc-a" "latency_p95" 2
    [(highLatency, sampleEnv plainRuleset sampleNow),
      (latencyUnavailable, sampleEnv plainRuleset (sampleNow + tick))]
    highLatency (sampleEnv plainRuleset (sampleNow + 2 * tick))
    (by decide) (by decide)
    (by
      intro t ht
      simp only [List.mem_cons, List.mem_singleton, List.not_mem_nil, or_false] at ht
      rcases ht with rfl | rfl
      · exact ⟨Or.inl (by decide), by decide⟩
      · exact ⟨Or.inr ⟨"timeout", rfl⟩, by decide⟩)
    (by decide) (by decide)
  obtain ⟨_, hbefore, _, rr, hrr, _, _, hdone⟩ := h
  exact ⟨hbefore, rr, hrr, (hdone (by decide) (by decide) (by decide)).1⟩

end AutonomousController
